import Mathlib

/-!
Verification development for a sans-I/O HTTP/1.1 connection engine
(`h11-rs`).  The Rust sources (`state.rs`, `util.rs`, `req.rs`, `resp.rs`,
`event.rs`, `body.rs`, `conn.rs`) are shallowly embedded: byte buffers are
`List Nat` of byte values, header maps are insertion-ordered association
lists of byte strings, machine integers are `Nat`, fallible operations
return `Except`, and the mutable connection driver is modelled by explicit
state passing.  The external crates used by the sources (`httparse`,
`http`) are modelled to their documented behaviour as pinned by the
repository's own unit tests; where that matters a doc comment says so.
-/

set_option maxRecDepth 4000

deriving instance DecidableEq for Except

namespace H11

/-! ## Byte-level helpers -/

/-- Bytes are natural numbers; all buffers are lists of bytes. -/
abbrev Bytes := List Nat

/-- ASCII blanks skipped by `httparse` at the edges of a header value
while parsing: space and horizontal tab. -/
def wsB (b : Nat) : Bool := b == 32 || b == 9

/-- ASCII decimal digit. -/
def digitB (b : Nat) : Bool := 48 ≤ b && b ≤ 57

/-- RFC 7230 `tchar`: the token characters accepted for methods and header
names by `httparse` and by `http::Method::from_bytes` /
`http::HeaderName::from_bytes`. -/
def tokenCharB (b : Nat) : Bool :=
  digitB b || (65 ≤ b && b ≤ 90) || (97 ≤ b && b ≤ 122) ||
  b == 33 || b == 35 || b == 36 || b == 37 || b == 38 || b == 39 ||
  b == 42 || b == 43 || b == 45 || b == 46 || b == 94 || b == 95 ||
  b == 96 || b == 124 || b == 126

/-- Request-target characters: printable bytes other than space, DEL and
`#` (the `#` exclusion keeps the model inside the fragment-free
`http::Uri` request targets the codec emits). -/
def uriCharB (b : Nat) : Bool := 33 ≤ b && b ≠ 127 && b ≠ 35

/-- Header-value characters: horizontal tab or any byte from space
upwards except DEL.  This is the common ground of `httparse`'s value
validation and `http::HeaderValue::from_bytes`. -/
def valueCharB (b : Nat) : Bool := b == 9 || (32 ≤ b && b ≠ 127)

/-- Reason-phrase characters accepted by the `httparse` response parser. -/
def reasonCharB (b : Nat) : Bool := valueCharB b

/-- Lowercase one ASCII byte, as `u8::to_ascii_lowercase`. -/
def lowerByte (b : Nat) : Nat := if 65 ≤ b ∧ b ≤ 90 then b + 32 else b

/-- Lowercase a byte string. -/
def lowerBytes (v : Bytes) : Bytes := v.map lowerByte

/-- ASCII case-insensitive equality, as `str::eq_ignore_ascii_case`. -/
def eqIgnoreCase (a b : Bytes) : Bool := lowerBytes a == lowerBytes b

/-- Drop leading whitespace bytes. -/
def dropWS : Bytes → Bytes
  | [] => []
  | b :: bs => if wsB b then dropWS bs else b :: bs

/-- Drop trailing whitespace. -/
def trimEnd (v : Bytes) : Bytes := (dropWS v.reverse).reverse

/-- Trim leading and trailing space/tab.  This ASCII trim renders the
claims' informal "trimmed"; the source's Unicode `str::trim` is modelled
faithfully by `uniTrim` below. -/
def trimBytes (v : Bytes) : Bytes := trimEnd (dropWS v)

/-- Longest prefix without a comma. -/
def takeNonComma : Bytes → Bytes
  | [] => []
  | b :: bs => if b == 44 then [] else b :: takeNonComma bs

/-- Segment of a byte string after its last comma (the whole string when
it has no comma).  This is how `s.rsplit(',').next()` behaves in
`util::is_chunked`. -/
def lastSegAfterComma (v : Bytes) : Bytes := (takeNonComma v.reverse).reverse

/-- Split a byte string on commas, never returning an empty list; models
`str::split(',')`. -/
def splitOnComma : Bytes → List Bytes
  | [] => [[]]
  | b :: t =>
    if b = 44 then [] :: splitOnComma t
    else
      match splitOnComma t with
      | s :: ss => (b :: s) :: ss
      | [] => [[b]]

/-- Parse a byte string with Rust's `usize::from_str`: an optional leading
`+`, then at least one decimal digit, nothing else, and the value must fit
in 64 bits. -/
def parseUsize (v : Bytes) : Option Nat :=
  let core := match v with
    | 43 :: t => t
    | t => t
  if core = [] then none
  else if core.all digitB then
    let n := core.foldl (fun acc b => acc * 10 + (b - 48)) 0
    if n < 2 ^ 64 then some n else none
  else none

/-! ## UTF-8 and Unicode whitespace

`util.rs` and `conn.rs` run header values through `str::from_utf8`
before comparing tokens, and trim them with the Unicode-aware
`str::trim`.  Both are modelled exactly: a strict UTF-8 decoder (no
overlong forms, no surrogates, code points at most `0x10FFFF`, as
`core::str::from_utf8` enforces) and the `White_Space` code-point set
behind `char::is_whitespace`. -/

/-- Unicode `White_Space` code points, the set `char::is_whitespace`
tests: TAB..CR, space, NEL, NBSP, OGHAM SPACE MARK, U+2000..U+200A,
LINE/PARAGRAPH SEPARATOR, NARROW NBSP, MEDIUM MATHEMATICAL SPACE and
IDEOGRAPHIC SPACE. -/
def isUniWS (c : Nat) : Bool :=
  (9 ≤ c && c ≤ 13) || c == 32 || c == 133 || c == 160 || c == 5760 ||
  (8192 ≤ c && c ≤ 8202) || c == 8232 || c == 8233 || c == 8239 || c == 8287 || c == 12288

/-- Fuelled strict UTF-8 decoder: code points of the byte string, or
`none` on any ill-formed sequence (the fuel bounds the byte count; every
step consumes at least one byte). -/
def utf8DecodeF : Nat → Bytes → Option (List Nat)
  | _, [] => some []
  | 0, _ :: _ => none
  | fuel + 1, b0 :: r =>
    if b0 ≤ 127 then
      match utf8DecodeF fuel r with
      | some cs => some (b0 :: cs)
      | none => none
    else if 194 ≤ b0 && b0 ≤ 223 then
      match r with
      | b1 :: r2 =>
        if 128 ≤ b1 && b1 ≤ 191 then
          match utf8DecodeF fuel r2 with
          | some cs => some (((b0 - 192) * 64 + (b1 - 128)) :: cs)
          | none => none
        else none
      | [] => none
    else if 224 ≤ b0 && b0 ≤ 239 then
      match r with
      | b1 :: b2 :: r3 =>
        if (if b0 == 224 then 160 ≤ b1 && b1 ≤ 191
            else if b0 == 237 then 128 ≤ b1 && b1 ≤ 159
            else 128 ≤ b1 && b1 ≤ 191) && (128 ≤ b2 && b2 ≤ 191) then
          match utf8DecodeF fuel r3 with
          | some cs =>
            some (((b0 - 224) * 4096 + (b1 - 128) * 64 + (b2 - 128)) :: cs)
          | none => none
        else none
      | _ => none
    else if 240 ≤ b0 && b0 ≤ 244 then
      match r with
      | b1 :: b2 :: b3 :: r4 =>
        if (if b0 == 240 then 144 ≤ b1 && b1 ≤ 191
            else if b0 == 244 then 128 ≤ b1 && b1 ≤ 143
            else 128 ≤ b1 && b1 ≤ 191) && (128 ≤ b2 && b2 ≤ 191) &&
           (128 ≤ b3 && b3 ≤ 191) then
          match utf8DecodeF fuel r4 with
          | some cs =>
            some (((b0 - 240) * 262144 + (b1 - 128) * 4096 + (b2 - 128) * 64 +
              (b3 - 128)) :: cs)
          | none => none
        else none
      | _ => none
    else none

/-- Strict UTF-8 decode of a whole byte string. -/
def utf8Decode (b : Bytes) : Option (List Nat) := utf8DecodeF b.length b

/-- Whether `str::from_utf8` accepts the byte string. -/
def utf8Valid (b : Bytes) : Bool := (utf8Decode b).isSome

/-- UTF-8 encoding of one code point. -/
def utf8EncodeChar (c : Nat) : Bytes :=
  if c < 128 then [c]
  else if c < 2048 then [192 + c / 64, 128 + c % 64]
  else if c < 65536 then [224 + c / 4096, 128 + (c / 64) % 64, 128 + c % 64]
  else [240 + c / 262144, 128 + (c / 4096) % 64, 128 + (c / 64) % 64, 128 + c % 64]

/-- UTF-8 encoding of a code-point string. -/
def utf8Encode (cs : List Nat) : Bytes := (cs.map utf8EncodeChar).flatten

/-- Drop leading and trailing `White_Space` code points, `str::trim`. -/
def uniTrimCPs (cs : List Nat) : List Nat :=
  ((cs.dropWhile isUniWS).reverse.dropWhile isUniWS).reverse

/-- `str::trim` on the bytes of a valid UTF-8 string: decode, trim the
Unicode whitespace at both ends, re-encode.  (Call sites guard with
`utf8Valid` first, as the source guards with `str::from_utf8`; an
invalid string is returned unchanged.) -/
def uniTrim (b : Bytes) : Bytes :=
  match utf8Decode b with
  | some cs => utf8Encode (uniTrimCPs cs)
  | none => b

/-! ## Well-known ASCII byte strings -/

def http11Bytes : Bytes := [72, 84, 84, 80, 47, 49, 46, 49]

def httpSlashOneDot : Bytes := [72, 84, 84, 80, 47, 49, 46]

def chunkedBytes : Bytes := [99, 104, 117, 110, 107, 101, 100]

def closeBytes : Bytes := [99, 108, 111, 115, 101]

def hundredContinueBytes : Bytes := [49, 48, 48, 45, 99, 111, 110, 116, 105, 110, 117, 101]

def transferEncodingBytes : Bytes := [116, 114, 97, 110, 115, 102, 101, 114, 45, 101, 110, 99, 111, 100, 105, 110, 103]

def contentLengthBytes : Bytes := [99, 111, 110, 116, 101, 110, 116, 45, 108, 101, 110, 103, 116, 104]

def connectionBytes : Bytes := [99, 111, 110, 110, 101, 99, 116, 105, 111, 110]

def expectBytes : Bytes := [101, 120, 112, 101, 99, 116]

def upgradeBytes : Bytes := [117, 112, 103, 114, 97, 100, 101]

def connectMethod : Bytes := [67, 79, 78, 78, 69, 67, 84]

def headMethod : Bytes := [72, 69, 65, 68]

def getMethod : Bytes := [71, 69, 84]

/-! ## `state.rs`: the dual connection state machine -/

/-- Events fed to the state machine (`state::StateEvent`). -/
inductive StateEvent where
  | Request
  | InfoResponse
  | Response
  | Data
  | EndOfMessage
  | ConnectionClosed
deriving DecidableEq, Repr, Fintype

/-- Protocol-switch kinds (`state::SwitchEvent`). -/
inductive SwitchEvent where
  | Connect
  | Upgrade
deriving DecidableEq, Repr, Fintype

/-- Client-side progress states (`state::Client`). -/
inductive Client where
  | Idle
  | SendBody
  | Done
  | MustClose
  | Closed
  | MightSwitchProtocol
  | SwitchedProtocol
  | Error
deriving DecidableEq, Repr, Fintype

/-- Server-side progress states (`state::Server`). -/
inductive Server where
  | Idle
  | SendResponse
  | SendBody
  | Done
  | MustClose
  | Closed
  | SwitchedProtocol
  | Error
deriving DecidableEq, Repr, Fintype

/-- Errors produced by the state machine; the source uses `failure`
format strings, one constructor per distinct message. -/
inductive StateError where
  | invalidTransition
  | cannotConnect
  | cannotUpgrade
  | notReusable
deriving DecidableEq, Repr

/-- Transition table of `state::Client::send`. -/
def Client.send : Client → StateEvent → Except StateError Client
  | .Idle, .Request => .ok .SendBody
  | .SendBody, .Data => .ok .SendBody
  | .SendBody, .EndOfMessage => .ok .Done
  | .Idle, .ConnectionClosed => .ok .Closed
  | .Done, .ConnectionClosed => .ok .Closed
  | .MustClose, .ConnectionClosed => .ok .Closed
  | .Closed, .ConnectionClosed => .ok .Closed
  | _, _ => .error .invalidTransition

/-- Transition table of `state::Server::send`. -/
def Server.send : Server → StateEvent → Option SwitchEvent → Except StateError Server
  | .Idle, .Request, none => .ok .SendResponse
  | .SendResponse, .InfoResponse, none => .ok .SendResponse
  | .SendResponse, .InfoResponse, some .Upgrade => .ok .SwitchedProtocol
  | .SendResponse, .Response, some .Connect => .ok .SwitchedProtocol
  | .Idle, .Response, none => .ok .SendBody
  | .SendResponse, .Response, none => .ok .SendBody
  | .SendBody, .Data, none => .ok .SendBody
  | .SendBody, .EndOfMessage, none => .ok .Done
  | .Idle, .ConnectionClosed, none => .ok .Closed
  | .Done, .ConnectionClosed, none => .ok .Closed
  | .MustClose, .ConnectionClosed, none => .ok .Closed
  | .Closed, .ConnectionClosed, none => .ok .Closed
  | _, _, _ => .error .invalidTransition

/-- Connection-level state record (`state::State`). -/
structure State where
  client : Client
  server : Server
  keep_alive : Bool
  pending_connect : Bool
  pending_upgrade : Bool
deriving DecidableEq, Repr

/-- Initial state, `State::new`. -/
def State.new : State :=
  { client := .Idle, server := .Idle, keep_alive := true
    pending_connect := false, pending_upgrade := false }

/-- Whether a protocol switch has been proposed (`State::any_pending`). -/
def State.any_pending (s : State) : Bool := s.pending_connect || s.pending_upgrade

/-- One execution of the body of the `State::state_transitions` loop:
the four derivation rules applied in source order. -/
def State.transStep (s : State) : State :=
  let s := if s.any_pending ∧ s.client = .Done then { s with client := .MightSwitchProtocol } else s
  let s := if ¬ s.any_pending ∧ s.client = .MightSwitchProtocol then { s with client := .Done } else s
  let s :=
    if ¬ s.keep_alive then
      let s := if s.client = .Done then { s with client := .MustClose } else s
      if s.server = .Done then { s with server := .MustClose } else s
    else s
  match s.client, s.server with
  | .MightSwitchProtocol, .SwitchedProtocol => { s with client := .SwitchedProtocol }
  | .Closed, .Done => { s with server := .MustClose }
  | .Closed, .Idle => { s with server := .MustClose }
  | .Error, .Done => { s with server := .MustClose }
  | .Done, .Closed => { s with client := .MustClose }
  | .Idle, .Closed => { s with client := .MustClose }
  | .Done, .Error => { s with client := .MustClose }
  | _, _ => s

/-- The `state_transitions` loop with explicit fuel: run `transStep`
until the `(client, server)` pair stops changing, as the source's
`loop { ... if start_states == self.states() { return self } }`. -/
def State.transFuel : Nat → State → State
  | 0, s => s
  | n + 1, s =>
    let s' := s.transStep
    if s'.client = s.client ∧ s'.server = s.server then s'
    else State.transFuel n s'

/-- The closure fixpoint `State::state_transitions`.  The source loop is
unbounded; fuel 512 (the size of the state space) is shown sufficient in
the theorems below. -/
def State.state_transitions (s : State) : State := State.transFuel 512 s

/-- Transition for an event sent by the client (`State::client_event`);
a `Request` also drives the server side `Idle → SendResponse`. -/
def State.client_event (s : State) (event : StateEvent) : Except StateError State :=
  match s.client.send event with
  | .error e => .error e
  | .ok c =>
    match (if event = .Request then s.server.send .Request none else .ok s.server) with
    | .error e => .error e
    | .ok sv => .ok (State.state_transitions { s with client := c, server := sv })

/-- Body of `State::server_event` after the proposal check: run the
server transition and clear the pending flags on an unswitched final
`Response`. -/
def State.server_event_core (s : State) (event : StateEvent) (switch : Option SwitchEvent) :
    Except StateError State :=
  match s.server.send event switch with
  | .error e => .error e
  | .ok sv =>
    .ok (State.state_transitions
      { s with server := sv
               pending_connect :=
                 if switch.isNone ∧ event = .Response then false else s.pending_connect
               pending_upgrade :=
                 if switch.isNone ∧ event = .Response then false else s.pending_upgrade })

/-- Transition for an event sent by the server (`State::server_event`).
A switch needs its pending proposal; a final `Response` without a switch
clears both pending flags. -/
def State.server_event (s : State) (event : StateEvent) (switch : Option SwitchEvent) :
    Except StateError State :=
  match switch with
  | some .Connect =>
    if ¬ s.pending_connect then .error .cannotConnect
    else State.server_event_core s event switch
  | some .Upgrade =>
    if ¬ s.pending_upgrade then .error .cannotUpgrade
    else State.server_event_core s event switch
  | none => State.server_event_core s event switch

/-- Mark the client side in error (`State::client_error`). -/
def State.client_error (s : State) : State :=
  State.state_transitions { s with client := .Error }

/-- Mark the server side in error (`State::server_error`). -/
def State.server_error (s : State) : State :=
  State.state_transitions { s with server := .Error }

/-- Record a CONNECT proposal (`State::connect_proposal`). -/
def State.connect_proposal (s : State) : State :=
  State.state_transitions { s with pending_connect := true }

/-- Record an Upgrade proposal (`State::upgrade_proposal`). -/
def State.upgrade_proposal (s : State) : State :=
  State.state_transitions { s with pending_upgrade := true }

/-- Turn keep-alive off (`State::disable_keep_alive`). -/
def State.disable_keep_alive (s : State) : State :=
  State.state_transitions { s with keep_alive := false }

/-- Reset for the next request cycle (`State::start_next_cycle`). -/
def State.start_next_cycle (s : State) : Except StateError State :=
  if (s.client, s.server) ≠ (Client.Done, Server.Done) then .error .notReusable
  else .ok { s with client := .Idle, server := .Idle }

/-! ## Header maps and `util.rs`

The sources use `http::HeaderMap`, an insertion-ordered multimap whose
names are stored lowercased; it is modelled as an association list of
(name, value) byte strings in insertion order with lowercase names. -/

/-- Ordered, multi-valued header map. -/
abbrev HeaderMap := List (Bytes × Bytes)

/-- All values of a name in order (`HeaderMap::get_all`). -/
def getAll (hs : HeaderMap) (name : Bytes) : List Bytes :=
  (hs.filter (fun p => p.1 = name)).map (·.2)

/-- First value of a name (`HeaderMap::get`). -/
def getFirst (hs : HeaderMap) (name : Bytes) : Option Bytes :=
  (getAll hs name).head?

/-- Whether a name is present (`HeaderMap::contains_key`). -/
def containsKey (hs : HeaderMap) (name : Bytes) : Bool :=
  hs.any (fun p => p.1 == name)

/-- HTTP versions handled by the codec. -/
inductive Version where
  | Http10
  | Http11
deriving DecidableEq, Repr

/-- Keep-alive decision, `util::can_keep_alive`: version at least 1.1
and no `Connection` value that is valid UTF-8 with a comma-separated
token whose `str::trim` ASCII-case-insensitively equals `close`.  A
non-UTF-8 value counts as not containing `close`, the source's
`unwrap_or(false)`; splitting the bytes on `44` matches `split(',')` on
the string since UTF-8 never uses an ASCII byte inside a longer
sequence. -/
def can_keep_alive (version : Version) (headers : HeaderMap) : Bool :=
  ¬ (version = .Http10 ||
     (getAll headers connectionBytes).any (fun v =>
       if utf8Valid v then
         (splitOnComma v).any (fun tok => eqIgnoreCase (uniTrim tok) closeBytes)
       else false))

/-- Chunked-framing test, `util::is_chunked`: the last
`Transfer-Encoding` value must be valid UTF-8 (`str::from_utf8`, else
`unwrap_or(false)`), and the segment after its last comma
(`rsplit(',').next()`), `str::trim`med, ASCII-case-insensitively
equals `chunked`. -/
def is_chunked (headers : HeaderMap) : Bool :=
  match (getAll headers transferEncodingBytes).getLast? with
  | some v =>
    if utf8Valid v then eqIgnoreCase (uniTrim (lastSegAfterComma v)) chunkedBytes
    else false
  | none => false

/-- Content-length extraction, `util::maybe_content_length`: the first
`Content-Length` value, required visible-ASCII (`HeaderValue::to_str`),
parsed with `usize::from_str`; `None` when absent or malformed. -/
def maybe_content_length (headers : HeaderMap) : Option Nat :=
  match getFirst headers contentLengthBytes with
  | some v => if v.all (fun b => b == 9 || (32 ≤ b && b < 127)) then parseUsize v else none
  | none => none

/-! ## Message heads (`req.rs`, `resp.rs`) -/

/-- Body framings (`body::FramingMethod`). -/
inductive FramingMethod where
  | ContentLength (n : Nat)
  | Chunked
  | Http10
deriving DecidableEq, Repr

/-- Request target in origin form; models the `http::Uri` request
targets the codec reads and writes (`uri.path()` and `uri.query()`). -/
structure Uri where
  path : Bytes
  query : Option Bytes
deriving DecidableEq, Repr

/-- Request head (`req::ReqHead`); the method is its token byte string. -/
structure ReqHead where
  method : Bytes
  uri : Uri
  version : Version
  headers : HeaderMap
deriving DecidableEq, Repr

/-- Response head (`resp::RespHead`); the status is its `u16` code. -/
structure RespHead where
  status : Nat
  version : Version
  headers : HeaderMap
deriving DecidableEq, Repr

/-- Canonical reason phrase table of `http::StatusCode::canonical_reason`. -/
def canonicalReason (s : Nat) : Option Bytes :=
  match s with
  | 100 => some [67, 111, 110, 116, 105, 110, 117, 101]
  | 101 => some [83, 119, 105, 116, 99, 104, 105, 110, 103, 32, 80, 114, 111, 116, 111, 99, 111, 108, 115]
  | 102 => some [80, 114, 111, 99, 101, 115, 115, 105, 110, 103]
  | 200 => some [79, 75]
  | 201 => some [67, 114, 101, 97, 116, 101, 100]
  | 202 => some [65, 99, 99, 101, 112, 116, 101, 100]
  | 203 => some [78, 111, 110, 45, 65, 117, 116, 104, 111, 114, 105, 116, 97, 116, 105, 118, 101, 32, 73, 110, 102, 111, 114, 109, 97, 116, 105, 111, 110]
  | 204 => some [78, 111, 32, 67, 111, 110, 116, 101, 110, 116]
  | 205 => some [82, 101, 115, 101, 116, 32, 67, 111, 110, 116, 101, 110, 116]
  | 206 => some [80, 97, 114, 116, 105, 97, 108, 32, 67, 111, 110, 116, 101, 110, 116]
  | 207 => some [77, 117, 108, 116, 105, 45, 83, 116, 97, 116, 117, 115]
  | 208 => some [65, 108, 114, 101, 97, 100, 121, 32, 82, 101, 112, 111, 114, 116, 101, 100]
  | 226 => some [73, 77, 32, 85, 115, 101, 100]
  | 300 => some [77, 117, 108, 116, 105, 112, 108, 101, 32, 67, 104, 111, 105, 99, 101, 115]
  | 301 => some [77, 111, 118, 101, 100, 32, 80, 101, 114, 109, 97, 110, 101, 110, 116, 108, 121]
  | 302 => some [70, 111, 117, 110, 100]
  | 303 => some [83, 101, 101, 32, 79, 116, 104, 101, 114]
  | 304 => some [78, 111, 116, 32, 77, 111, 100, 105, 102, 105, 101, 100]
  | 305 => some [85, 115, 101, 32, 80, 114, 111, 120, 121]
  | 307 => some [84, 101, 109, 112, 111, 114, 97, 114, 121, 32, 82, 101, 100, 105, 114, 101, 99, 116]
  | 308 => some [80, 101, 114, 109, 97, 110, 101, 110, 116, 32, 82, 101, 100, 105, 114, 101, 99, 116]
  | 400 => some [66, 97, 100, 32, 82, 101, 113, 117, 101, 115, 116]
  | 401 => some [85, 110, 97, 117, 116, 104, 111, 114, 105, 122, 101, 100]
  | 402 => some [80, 97, 121, 109, 101, 110, 116, 32, 82, 101, 113, 117, 105, 114, 101, 100]
  | 403 => some [70, 111, 114, 98, 105, 100, 100, 101, 110]
  | 404 => some [78, 111, 116, 32, 70, 111, 117, 110, 100]
  | 405 => some [77, 101, 116, 104, 111, 100, 32, 78, 111, 116, 32, 65, 108, 108, 111, 119, 101, 100]
  | 406 => some [78, 111, 116, 32, 65, 99, 99, 101, 112, 116, 97, 98, 108, 101]
  | 407 => some [80, 114, 111, 120, 121, 32, 65, 117, 116, 104, 101, 110, 116, 105, 99, 97, 116, 105, 111, 110, 32, 82, 101, 113, 117, 105, 114, 101, 100]
  | 408 => some [82, 101, 113, 117, 101, 115, 116, 32, 84, 105, 109, 101, 111, 117, 116]
  | 409 => some [67, 111, 110, 102, 108, 105, 99, 116]
  | 410 => some [71, 111, 110, 101]
  | 411 => some [76, 101, 110, 103, 116, 104, 32, 82, 101, 113, 117, 105, 114, 101, 100]
  | 412 => some [80, 114, 101, 99, 111, 110, 100, 105, 116, 105, 111, 110, 32, 70, 97, 105, 108, 101, 100]
  | 413 => some [80, 97, 121, 108, 111, 97, 100, 32, 84, 111, 111, 32, 76, 97, 114, 103, 101]
  | 414 => some [85, 82, 73, 32, 84, 111, 111, 32, 76, 111, 110, 103]
  | 415 => some [85, 110, 115, 117, 112, 112, 111, 114, 116, 101, 100, 32, 77, 101, 100, 105, 97, 32, 84, 121, 112, 101]
  | 416 => some [82, 97, 110, 103, 101, 32, 78, 111, 116, 32, 83, 97, 116, 105, 115, 102, 105, 97, 98, 108, 101]
  | 417 => some [69, 120, 112, 101, 99, 116, 97, 116, 105, 111, 110, 32, 70, 97, 105, 108, 101, 100]
  | 418 => some [73, 39, 109, 32, 97, 32, 116, 101, 97, 112, 111, 116]
  | 421 => some [77, 105, 115, 100, 105, 114, 101, 99, 116, 101, 100, 32, 82, 101, 113, 117, 101, 115, 116]
  | 422 => some [85, 110, 112, 114, 111, 99, 101, 115, 115, 97, 98, 108, 101, 32, 69, 110, 116, 105, 116, 121]
  | 423 => some [76, 111, 99, 107, 101, 100]
  | 424 => some [70, 97, 105, 108, 101, 100, 32, 68, 101, 112, 101, 110, 100, 101, 110, 99, 121]
  | 426 => some [85, 112, 103, 114, 97, 100, 101, 32, 82, 101, 113, 117, 105, 114, 101, 100]
  | 428 => some [80, 114, 101, 99, 111, 110, 100, 105, 116, 105, 111, 110, 32, 82, 101, 113, 117, 105, 114, 101, 100]
  | 429 => some [84, 111, 111, 32, 77, 97, 110, 121, 32, 82, 101, 113, 117, 101, 115, 116, 115]
  | 431 => some [82, 101, 113, 117, 101, 115, 116, 32, 72, 101, 97, 100, 101, 114, 32, 70, 105, 101, 108, 100, 115, 32, 84, 111, 111, 32, 76, 97, 114, 103, 101]
  | 451 => some [85, 110, 97, 118, 97, 105, 108, 97, 98, 108, 101, 32, 70, 111, 114, 32, 76, 101, 103, 97, 108, 32, 82, 101, 97, 115, 111, 110, 115]
  | 500 => some [73, 110, 116, 101, 114, 110, 97, 108, 32, 83, 101, 114, 118, 101, 114, 32, 69, 114, 114, 111, 114]
  | 501 => some [78, 111, 116, 32, 73, 109, 112, 108, 101, 109, 101, 110, 116, 101, 100]
  | 502 => some [66, 97, 100, 32, 71, 97, 116, 101, 119, 97, 121]
  | 503 => some [83, 101, 114, 118, 105, 99, 101, 32, 85, 110, 97, 118, 97, 105, 108, 97, 98, 108, 101]
  | 504 => some [71, 97, 116, 101, 119, 97, 121, 32, 84, 105, 109, 101, 111, 117, 116]
  | 505 => some [72, 84, 84, 80, 32, 86, 101, 114, 115, 105, 111, 110, 32, 78, 111, 116, 32, 83, 117, 112, 112, 111, 114, 116, 101, 100]
  | 506 => some [86, 97, 114, 105, 97, 110, 116, 32, 65, 108, 115, 111, 32, 78, 101, 103, 111, 116, 105, 97, 116, 101, 115]
  | 507 => some [73, 110, 115, 117, 102, 102, 105, 99, 105, 101, 110, 116, 32, 83, 116, 111, 114, 97, 103, 101]
  | 508 => some [76, 111, 111, 112, 32, 68, 101, 116, 101, 99, 116, 101, 100]
  | 510 => some [78, 111, 116, 32, 69, 120, 116, 101, 110, 100, 101, 100]
  | 511 => some [78, 101, 116, 119, 111, 114, 107, 32, 65, 117, 116, 104, 101, 110, 116, 105, 99, 97, 116, 105, 111, 110, 32, 82, 101, 113, 117, 105, 114, 101, 100]
  | _ => none

/-- Three-digit decimal bytes of a status code in `100..=999`, as
`http::StatusCode::as_str`. -/
def digits3 (s : Nat) : Bytes := [48 + s / 100, 48 + s / 10 % 10, 48 + s % 10]

/-- Serialized bytes of a header block: each `name: value CRLF` in
insertion order, duplicates preserved (the loop shared by
`ReqHead::write_to_buf`, `RespHead::write_to_buf` and
`Event::into_buf`). -/
def headerLinesBytes : HeaderMap → Bytes
  | [] => []
  | (n, v) :: t => n ++ [58, 32] ++ v ++ [13, 10] ++ headerLinesBytes t

/-- Serialized request-target bytes: `path` then `?query` when present. -/
def Uri.targetBytes (u : Uri) : Bytes :=
  u.path ++ (match u.query with | some q => 63 :: q | none => [])

/-- Request serialization, `ReqHead::write_to_buf`.  The source
`unreachable!`s on an HTTP/1.0 head; that panic is modelled as `none`. -/
def ReqHead.write_to_buf (r : ReqHead) : Option Bytes :=
  match r.version with
  | .Http10 => none
  | .Http11 => some
      (r.method ++ [32] ++ r.uri.targetBytes ++ [32] ++ http11Bytes ++ [13, 10] ++
       headerLinesBytes r.headers ++ [13, 10])

/-- Response serialization, `RespHead::write_to_buf`: the canonical
reason phrase is appended after a space when the code has one, otherwise
code and space are both omitted.  HTTP/1.0 panics, modelled as `none`. -/
def RespHead.write_to_buf (r : RespHead) : Option Bytes :=
  match r.version with
  | .Http10 => none
  | .Http11 => some
      (http11Bytes ++ [32] ++ digits3 r.status ++
       (match canonicalReason r.status with | some reason => 32 :: reason | none => []) ++
       [13, 10] ++ headerLinesBytes r.headers ++ [13, 10])

/-- Keep-alive for a request head (`ReqHead::can_keep_alive`). -/
def ReqHead.can_keep_alive (r : ReqHead) : Bool :=
  H11.can_keep_alive r.version r.headers

/-- Keep-alive for a response head (`RespHead::can_keep_alive`). -/
def RespHead.can_keep_alive (r : RespHead) : Bool :=
  H11.can_keep_alive r.version r.headers

/-- Request framing decision, `ReqHead::framing_method`. -/
def ReqHead.framing_method (r : ReqHead) : FramingMethod :=
  if is_chunked r.headers then .Chunked
  else .ContentLength ((maybe_content_length r.headers).getD 0)

/-- Status success test, `http::StatusCode::is_success`. -/
def isSuccess (s : Nat) : Bool := 200 ≤ s && s < 300

/-- Response framing decision given the paired request method,
`RespHead::framing_method`. -/
def RespHead.framing_method (r : RespHead) (method : Bytes) : FramingMethod :=
  if r.status = 204 ∨ r.status = 304 ∨ method = headMethod ∨
     (method = connectMethod ∧ isSuccess r.status) then
    .ContentLength 0
  else if is_chunked r.headers then .Chunked
  else
    match maybe_content_length r.headers with
    | some n => .ContentLength n
    | none => .Http10

/-! ## Head parsing (`ReqHead::from_buf`, `RespHead::from_buf`)

The parsing behaviour of the external `httparse` crate is modelled as
the repository's unit tests pin it: header folding, whitespace before a
colon and empty header names are rejected; header values have leading
blanks skipped and trailing blanks trimmed; names are lowercased by
`http::HeaderName::from_bytes`; at most 50 headers fit the parse array;
a parse left incomplete panics on the source's `unwrap`, modelled as a
parse failure. -/

/-- Index of the first `CRLF CRLF` occurrence (`twoway::find_bytes`). -/
def findSub4 : Bytes → Option Nat
  | [] => none
  | b :: t =>
    if (b :: t).take 4 = [13, 10, 13, 10] then some 0
    else (findSub4 t).map (· + 1)

/-- Longest prefix whose bytes satisfy `keep`, with the remainder. -/
def spanB (keep : Nat → Bool) : Bytes → Bytes × Bytes
  | [] => ([], [])
  | b :: bs =>
    if keep b then
      let r := spanB keep bs
      (b :: r.1, r.2)
    else ([], b :: bs)

/-- Expect a literal byte sequence and drop it. -/
def dropLit : Bytes → Bytes → Option Bytes
  | [], r => some r
  | p :: ps, b :: bs => if b = p then dropLit ps bs else none
  | _ :: _, [] => none

/-- Drop leading CR and LF bytes (`httparse`'s `skip_empty_lines`). -/
def dropCrlfLead : Bytes → Bytes
  | [] => []
  | b :: bs => if b == 13 || b == 10 then dropCrlfLead bs else b :: bs

/-- Value part of one header line, after its name and colon were read:
leading blanks skipped, bytes to the line end collected and validated,
trailing blanks trimmed, the name lowercased, and the continuation
`recur` run on the bytes after the line terminator. -/
def parseHeaderAfterName (recur : Bytes → Except Unit (Option (HeaderMap × Bytes)))
    (n r2 : Bytes) : Except Unit (Option (HeaderMap × Bytes)) :=
  if n = [] then .error ()
  else if ¬ ((spanB (fun c => c != 13 && c != 10) (dropWS r2)).1).all valueCharB then .error ()
  else
    match (spanB (fun c => c != 13 && c != 10) (dropWS r2)).2 with
    | 13 :: 10 :: r5 =>
      (recur r5).map (Option.map (fun p =>
        ((lowerBytes n, trimEnd (spanB (fun c => c != 13 && c != 10) (dropWS r2)).1) :: p.1, p.2)))
    | 10 :: r5 =>
      (recur r5).map (Option.map (fun p =>
        ((lowerBytes n, trimEnd (spanB (fun c => c != 13 && c != 10) (dropWS r2)).1) :: p.1, p.2)))
    | [13] => .ok none
    | [] => .ok none
    | _ => .error ()

/-- Header-block parser (`httparse::parse_headers` as driven by the
sources).  Result: `error` for an invalid block, `ok none` for an
incomplete one, `ok (some (headers, rest))` on the terminating blank
line.  Header folding, blanks before the colon and empty names are
rejected because a name must be an unbroken token run ending at `:`. -/
def parseHeaderBlock : Nat → Bytes → Except Unit (Option (HeaderMap × Bytes))
  | _, [] => .ok none
  | 0, _ => .ok none
  | fuel + 1, b :: t =>
    if b = 13 then
      match t with
      | 10 :: rest => .ok (some ([], rest))
      | [] => .ok none
      | _ => .error ()
    else if b = 10 then .ok (some ([], t))
    else
      match (spanB tokenCharB (b :: t)).2 with
      | 58 :: r2 =>
        parseHeaderAfterName (parseHeaderBlock fuel) ((spanB tokenCharB (b :: t)).1) r2
      | [] => .ok none
      | _ => .error ()

/-- Request-line parser: `METHOD SP target SP HTTP/1.<d> CRLF`, returning
method, target, version digit and the rest. -/
def parseReqLine (bs : Bytes) : Option (Bytes × Bytes × Nat × Bytes) :=
  if (spanB (· != 32) bs).1 = [] ∨ ¬ ((spanB (· != 32) bs).1).all tokenCharB then none
  else
    match (spanB (· != 32) bs).2 with
    | 32 :: r2 =>
      if (spanB (· != 32) r2).1 = [] ∨ ¬ ((spanB (· != 32) r2).1).all uriCharB then none
      else
        match (spanB (· != 32) r2).2 with
        | 32 :: r4 =>
          match dropLit httpSlashOneDot r4 with
          | some (48 :: 13 :: 10 :: r5) =>
            some ((spanB (· != 32) bs).1, (spanB (· != 32) r2).1, 0, r5)
          | some (49 :: 13 :: 10 :: r5) =>
            some ((spanB (· != 32) bs).1, (spanB (· != 32) r2).1, 1, r5)
          | _ => none
        | _ => none
    | _ => none

/-- Status-line parser: `HTTP/1.<d> SP code [SP reason] CRLF`, returning
version digit, status code and the rest. -/
def parseRespLine (bs : Bytes) : Option (Nat × Nat × Bytes) :=
  match dropLit httpSlashOneDot bs with
  | some (d :: 32 :: r1) =>
    if d ≠ 48 ∧ d ≠ 49 then none
    else
      match r1 with
      | d1 :: d2 :: d3 :: r2 =>
        if ¬ (digitB d1 && digitB d2 && digitB d3) then none
        else
          match r2 with
          | 32 :: r3 =>
            if ¬ ((spanB (fun b => b != 13 && b != 10) r3).1).all reasonCharB then none
            else
              match (spanB (fun b => b != 13 && b != 10) r3).2 with
              | 13 :: 10 :: r5 =>
                some (d - 48, (d1 - 48) * 100 + (d2 - 48) * 10 + (d3 - 48), r5)
              | 10 :: r5 =>
                some (d - 48, (d1 - 48) * 100 + (d2 - 48) * 10 + (d3 - 48), r5)
              | _ => none
          | 13 :: 10 :: r3 =>
            some (d - 48, (d1 - 48) * 100 + (d2 - 48) * 10 + (d3 - 48), r3)
          | 10 :: r3 =>
            some (d - 48, (d1 - 48) * 100 + (d2 - 48) * 10 + (d3 - 48), r3)
          | _ => none
      | _ => none
  | _ => none

/-- Interpretation of a request target as an origin-form `http::Uri`
(`Uri::from_shared` on the target slice): a path starting with `/` and
an optional query after the first `?`. -/
def parseTarget (t : Bytes) : Option Uri :=
  match t with
  | 47 :: _ =>
    match (spanB (· != 63) t).2 with
    | 63 :: qs => some { path := (spanB (· != 63) t).1, query := some qs }
    | _ => some { path := (spanB (· != 63) t).1, query := none }
  | _ => none

/-- Head-parse errors surfaced by `from_buf`. -/
inductive ParseError where
  | malformed
deriving DecidableEq, Repr

/-- Parse one complete request head prefix. -/
def parseReqHead (head : Bytes) : Option ReqHead :=
  match parseReqLine (dropCrlfLead head) with
  | some (m, t, ver, r) =>
    match parseHeaderBlock r.length r with
    | .ok (some (hs, _)) =>
      if hs.length > 50 then none
      else
        match parseTarget t with
        | some u =>
          some { method := m, uri := u
                 version := if ver = 1 then .Http11 else .Http10, headers := hs }
        | none => none
    | _ => none
  | none => none

/-- Parse one complete response head prefix. -/
def parseRespHead (head : Bytes) : Option RespHead :=
  match parseRespLine (dropCrlfLead head) with
  | some (ver, code, r) =>
    match parseHeaderBlock r.length r with
    | .ok (some (hs, _)) =>
      if hs.length > 50 then none
      else if code < 100 then none
      else some { status := code
                  version := if ver = 1 then .Http11 else .Http10, headers := hs }
    | _ => none
  | none => none

/-- Request-head extraction, `ReqHead::from_buf`.  The buffer is scanned
for `CRLF CRLF`; absent means need-more-data and the buffer is kept;
present means the prefix is consumed (also when its parse then fails)
and the parsed head or a parse error is returned. -/
def ReqHead.from_buf (buf : Bytes) : Except ParseError (Option ReqHead) × Bytes :=
  match findSub4 buf with
  | none => (.ok none, buf)
  | some n =>
    match parseReqHead (buf.take (n + 4)) with
    | some r => (.ok (some r), buf.drop (n + 4))
    | none => (.error .malformed, buf.drop (n + 4))

/-- Response-head extraction, `RespHead::from_buf`; same shape as the
request side. -/
def RespHead.from_buf (buf : Bytes) : Except ParseError (Option RespHead) × Bytes :=
  match findSub4 buf with
  | none => (.ok none, buf)
  | some n =>
    match parseRespHead (buf.take (n + 4)) with
    | some r => (.ok (some r), buf.drop (n + 4))
    | none => (.error .malformed, buf.drop (n + 4))

/-! ## Events (`event.rs`) -/

/-- The event currency between caller and engine (`event::Event`). -/
inductive Event where
  | Request (r : ReqHead)
  | InfoResponse (r : RespHead)
  | Response (r : RespHead)
  | Data (b : Bytes)
  | EndOfMessage (trailers : Option HeaderMap)
  | ConnectionClosed
deriving DecidableEq, Repr

/-- Map an event to its state-machine event (`Event::to_state_event`). -/
def Event.to_state_event : Event → StateEvent
  | .Request _ => .Request
  | .InfoResponse _ => .InfoResponse
  | .Response _ => .Response
  | .Data _ => .Data
  | .EndOfMessage _ => .EndOfMessage
  | .ConnectionClosed => .ConnectionClosed

/-- Serialize an event (`Event::into_buf`): heads through their
`write_to_buf`, `Data` passed through unchanged, `EndOfMessage` with
trailers as bare trailer header lines, `EndOfMessage(None)` and
`ConnectionClosed` as no bytes.  `none` models the serializer panic on
an HTTP/1.0 head. -/
def Event.into_buf : Event → Option Bytes
  | .Request r => r.write_to_buf
  | .InfoResponse r => r.write_to_buf
  | .Response r => r.write_to_buf
  | .Data b => some b
  | .EndOfMessage (some hdrs) => some (headerLinesBytes hdrs)
  | .EndOfMessage none => some []
  | .ConnectionClosed => some []

/-! ## Body framing (`body.rs`) -/

/-- Body errors (`body::BodyError`).  The source's `IO` variant wraps
`write!` failures that cannot occur on an in-memory buffer and is
omitted; `HttpParse` stands for any wrapped `httparse` error. -/
inductive BodyError where
  | TooMuchData
  | ConnectionClosedPrematurely
  | InvalidChunkSize
  | HttpParse
deriving DecidableEq, Repr

/-- Lowercase hex digit byte for a value below 16. -/
def hexDigitOut (n : Nat) : Nat := if n < 10 then 48 + n else 87 + n

/-- Most-significant-first hex digits of a positive number (fuelled; the
first argument only needs to be at least the digit count). -/
def hexCore : Nat → Nat → Bytes
  | 0, _ => []
  | _, 0 => []
  | fuel + 1, n => hexCore fuel (n / 16) ++ [hexDigitOut (n % 16)]

/-- Lowercase hex rendering of a length, as Rust's `{:x}` format. -/
def hexLower (n : Nat) : Bytes := if n = 0 then [48] else hexCore n n

/-- Bytes put on the wire by `writer::write_chunked_chunk`:
`hex(len) CRLF payload CRLF`. -/
def write_chunked_chunk (data : Bytes) : Bytes :=
  hexLower data.length ++ [13, 10] ++ data ++ [13, 10]

/-- Outgoing chunk bookkeeping of the Content-Length body writer,
`writer::ContentLength::write_chunk`: the source rejects a chunk with
`data.len() < self.0` as `TooMuchData` and otherwise subtracts the
chunk length from the counter (a `usize` subtraction, wrapping modulo
`2^64` when the chunk is longer than the remainder). -/
def write_chunk (rem : Nat) (data : Bytes) : Except BodyError (Nat × Bytes) :=
  if data.length < rem then .error .TooMuchData
  else .ok ((rem + 2 ^ 64 - data.length) % 2 ^ 64, data)

/-- Chunked-reader sub-states (`body::Chunked`). -/
inductive Chunked where
  | Start
  | Data (rem : Nat)
  | End
  | Trailers
deriving DecidableEq, Repr

/-- Body readers (`body::BodyReader`). -/
inductive BodyReader where
  | ContentLength (rem : Nat)
  | Chunked (c : Chunked)
  | Http10
deriving DecidableEq, Repr

/-- Reader construction from a framing (`From<FramingMethod>`). -/
def BodyReader.from_framing : FramingMethod → BodyReader
  | .ContentLength n => .ContentLength n
  | .Chunked => .Chunked .Start
  | .Http10 => .Http10

/-- EOF handling, `BodyReader::eof`: any `ContentLength` or `Chunked`
reader reports `ConnectionClosedPrematurely`; `Http10` terminates
normally. -/
def BodyReader.eof : BodyReader → Except BodyError Event
  | .ContentLength _ => .error .ConnectionClosedPrematurely
  | .Chunked _ => .error .ConnectionClosedPrematurely
  | .Http10 => .ok (.EndOfMessage none)

/-- Chunk-size line parser (`httparse::parse_chunk_size`, modelled):
hex digits (at most 16), optional blanks, an optional extension after
`;`, terminated by CRLF; `ok none` when the buffer ends first. -/
def parseChunkSizeAux : Nat → Bytes → Nat → Nat → Bool → Bool →
    Except Unit (Option (Nat × Bytes))
  | _, [], _, _, _, _ => .ok none
  | 0, _, _, _, _, _ => .ok none
  | fuel + 1, b :: bs, size, count, inSize, inExt =>
    if inSize ∧ (digitB b ∨ (97 ≤ b ∧ b ≤ 102) ∨ (65 ≤ b ∧ b ≤ 70)) then
      if count > 15 then .error ()
      else
        let d := if digitB b then b - 48 else if 97 ≤ b then b - 87 else b - 55
        parseChunkSizeAux fuel bs (size * 16 + d) (count + 1) true inExt
    else if b = 13 then
      match bs with
      | 10 :: r => .ok (some (size, r))
      | [] => .ok none
      | _ => .error ()
    else if b = 59 then parseChunkSizeAux fuel bs size count false true
    else if inExt then parseChunkSizeAux fuel bs size count false true
    else if b = 32 ∨ b = 9 then parseChunkSizeAux fuel bs size count false false
    else .error ()

/-- Entry point for the chunk-size parser, returning the size and the
buffer after the consumed size line. -/
def parse_chunk_size (buf : Bytes) : Except Unit (Option (Nat × Bytes)) :=
  parseChunkSizeAux buf.length buf 0 0 true false

/-- Chunked-body reader step, `body::Chunked::next_event`: the source's
`loop` over the sub-state, fuelled (each `continue` consumes at least
two buffer bytes, so `buf.length + 1` fuel always suffices). -/
def Chunked.next_event : Nat → Chunked → Bytes →
    Except BodyError (Option Event) × Chunked × Bytes
  | 0, c, buf => (.ok none, c, buf)
  | fuel + 1, c, buf =>
    match c with
    | .Start =>
      match parse_chunk_size buf with
      | .error _ => (.error .InvalidChunkSize, .Start, buf)
      | .ok none => (.ok none, .Start, buf)
      | .ok (some (size, rest)) =>
        if size = 0 then Chunked.next_event fuel .Trailers rest
        else Chunked.next_event fuel (.Data size) rest
    | .Data rem =>
      let d := buf.take (min rem buf.length)
      if d = [] then (.ok none, .Data rem, buf)
      else if rem = d.length then (.ok (some (.Data d)), .End, buf.drop (min rem buf.length))
      else (.ok (some (.Data d)), .Data (rem - d.length), buf.drop (min rem buf.length))
    | .End =>
      if buf.length < 2 then (.ok none, .End, buf)
      else Chunked.next_event fuel .Start (buf.drop 2)
    | .Trailers =>
      match parseHeaderBlock buf.length buf with
      | .error _ => (.error .HttpParse, .Trailers, buf)
      | .ok none => (.ok none, .Trailers, buf)
      | .ok (some (hs, rest)) =>
        if hs.length > 20 then (.error .HttpParse, .Trailers, buf)
        else if hs = [] then (.ok (some (.EndOfMessage none)), .Trailers, rest)
        else (.ok (some (.EndOfMessage (some hs))), .Trailers, rest)

/-- Content-Length reader step, `body::ContentLength::next_event`. -/
def contentLengthNext (rem : Nat) (buf : Bytes) :
    Except BodyError (Option Event) × Nat × Bytes :=
  if rem = 0 then (.ok (some (.EndOfMessage none)), 0, buf)
  else
    let d := buf.take (min rem buf.length)
    if d = [] then (.ok none, rem, buf)
    else (.ok (some (.Data d)), rem - d.length, buf.drop (min rem buf.length))

/-- Read-until-close reader step, `body::Http10::next_event`. -/
def http10Next (buf : Bytes) : Except BodyError (Option Event) × Bytes :=
  if buf = [] then (.ok none, []) else (.ok (some (.Data buf)), [])

/-- Reader dispatch, `BodyReader::next_event`, returning the produced
event, the updated reader and the remaining buffer. -/
def BodyReader.next_event (r : BodyReader) (buf : Bytes) :
    Except BodyError (Option Event) × BodyReader × Bytes :=
  match r with
  | .ContentLength rem =>
    let x := contentLengthNext rem buf
    (x.1, .ContentLength x.2.1, x.2.2)
  | .Chunked c =>
    let x := Chunked.next_event (buf.length + 1) c buf
    (x.1, .Chunked x.2.1, x.2.2)
  | .Http10 =>
    let x := http10Next buf
    (x.1, .Http10, x.2)

/-! ## Connection driver (`conn.rs`)

`conn::Inner` is modelled without its egress scratch buffer and
`max_event_size` reserve hint (they only affect allocation) and without
`peer_http_version` (initialized and never read).  Mutation is explicit:
each operation returns its result paired with the successor state. -/

/-- Mutable connection-driver state (`conn::Inner`). -/
structure Inner where
  state : State
  in_buf : Bytes
  in_buf_closed : Bool
  client_wants_continue : Bool
  body_reader : Option BodyReader
deriving DecidableEq, Repr

/-- Driver construction, `Inner::from_bufs` (the caller may hand over a
pre-filled ingest buffer). -/
def Inner.from_bufs (in_buf : Bytes) : Inner :=
  { state := State.new, in_buf, in_buf_closed := false
    client_wants_continue := false, body_reader := none }

/-- Errors surfaced by the driver. -/
inductive ConnError where
  | state (e : StateError)
  | parse (e : ParseError)
  | body (e : BodyError)
  | clientInError
  | closedThenData
  | panicked
deriving DecidableEq, Repr

/-- Ingest, `Inner::read_from`, abstracted over the I/O source: the
caller supplies the bytes one `read` returned; an empty read marks EOF,
and data after EOF is the `peer closed then sent data` fault. -/
def Inner.read_from (i : Inner) (chunk : Bytes) : Except ConnError Nat × Inner :=
  if chunk = [] then (.ok 0, { i with in_buf_closed := true })
  else if i.in_buf_closed then (.error .closedThenData, i)
  else (.ok chunk.length, { i with in_buf := i.in_buf ++ chunk })

/-- The `Expect` check in `Inner::client_event`: the last `Expect`
header value must be valid UTF-8 (`str::from_utf8`, else
`unwrap_or(false)`), and the whole value, `str::trim`med, is
ASCII-case-insensitively equal to `100-continue`. -/
def reqWantsContinue (req : ReqHead) : Bool :=
  match (getAll req.headers expectBytes).getLast? with
  | some v =>
    if utf8Valid v then eqIgnoreCase (uniTrim v) hundredContinueBytes else false
  | none => false

/-- Outbound/parsed client event processing, `Inner::client_event`.
For a `Request` the CONNECT/Upgrade proposals are recorded *before* the
fallible state transition, so a failed transition keeps those proposal
effects (`st0`). -/
def Inner.client_event (i : Inner) (e : Event) : Except ConnError Unit × Inner :=
  let st0 :=
    match e with
    | .Request req =>
      let s1 := if req.method = connectMethod then i.state.connect_proposal else i.state
      if containsKey req.headers upgradeBytes then s1.upgrade_proposal else s1
    | _ => i.state
  match st0.client_event e.to_state_event with
  | .error er => (.error (.state er), { i with state := st0 })
  | .ok s2 =>
    match e with
    | .Request req =>
      (.ok (), { i with state := if req.can_keep_alive then s2 else s2.disable_keep_alive
                        client_wants_continue := reqWantsContinue req })
    | .Data _ => (.ok (), { i with state := s2, client_wants_continue := false })
    | .EndOfMessage _ => (.ok (), { i with state := s2, client_wants_continue := false })
    | _ => (.ok (), { i with state := s2 })

/-- Switch derivation in `Inner::server_event`: an `InfoResponse` with
status 101 always proposes `Upgrade`; a `Response` proposes `Connect`
when `pending_connect` is set and the status is 2xx. -/
def switchFor (s : State) : Event → Option SwitchEvent
  | .InfoResponse resp => if resp.status = 101 then some .Upgrade else none
  | .Response resp => if s.pending_connect ∧ isSuccess resp.status then some .Connect else none
  | _ => none

/-- Outbound server event processing, `Inner::server_event`. -/
def Inner.server_event (i : Inner) (e : Event) : Except ConnError Unit × Inner :=
  match i.state.server_event e.to_state_event (switchFor i.state e) with
  | .error er => (.error (.state er), i)
  | .ok s2 =>
    match e with
    | .InfoResponse _ => (.ok (), { i with state := s2, client_wants_continue := false })
    | .Response resp =>
      (.ok (), { i with state := if resp.can_keep_alive then s2 else s2.disable_keep_alive
                        client_wants_continue := false })
    | _ => (.ok (), { i with state := s2 })

/-- The server driver's event pump, `Inner::next_client_event`. -/
def Inner.next_client_event (i : Inner) : Except ConnError (Option Event) × Inner :=
  match i.state.client with
  | .Idle =>
    match ReqHead.from_buf i.in_buf with
    | (.ok (some r), rest) =>
      let br := BodyReader.from_framing r.framing_method
      let x := Inner.client_event { i with in_buf := rest } (.Request r)
      match x.1 with
      | .ok _ => (.ok (some (.Request r)), { x.2 with body_reader := some br })
      | .error er => (.error er, x.2)
    | (.ok none, _) => (.ok none, i)
    | (.error _, rest) =>
      (.error (.parse .malformed), { i with state := i.state.client_error, in_buf := rest })
  | .SendBody =>
    match i.body_reader with
    | some br =>
      if i.in_buf ≠ [] then
        let x := br.next_event i.in_buf
        match x.1 with
        | .ok ev => (.ok ev, { i with body_reader := some x.2.1, in_buf := x.2.2 })
        | .error er => (.error (.body er), { i with body_reader := some x.2.1, in_buf := x.2.2 })
      else if i.in_buf_closed then
        match br.eof with
        | .ok ev => (.ok (some ev), i)
        | .error er => (.error (.body er), i)
      else (.ok none, i)
    | none => (.error .panicked, i)
  | .Error => (.error .clientInError, i)
  | _ => (.ok none, i)

/-- Server-role send of an informational response,
`HttpConn::<Server>::send_info_resp` (the returned bytes are the
serialized event; `none` models the HTTP/1.0 serializer panic). -/
def Inner.send_info_resp (i : Inner) (resp : RespHead) :
    Except ConnError (Option Bytes) × Inner :=
  let x := i.server_event (.InfoResponse resp)
  match x.1 with
  | .ok _ => (.ok (Event.InfoResponse resp).into_buf, x.2)
  | .error er => (.error er, x.2)

/-- Server-role send of a final response, `HttpConn::<Server>::send_resp`. -/
def Inner.send_resp (i : Inner) (resp : RespHead) :
    Except ConnError (Option Bytes) × Inner :=
  let x := i.server_event (.Response resp)
  match x.1 with
  | .ok _ => (.ok (Event.Response resp).into_buf, x.2)
  | .error er => (.error er, x.2)

/-- States of the server driver reachable from construction through its
public operations (`next_event`, the five send operations, and
`read_from`). -/
inductive Reachable : Inner → Prop where
  | init (in_buf : Bytes) : Reachable (Inner.from_bufs in_buf)
  | read_from (i : Inner) (chunk : Bytes) : Reachable i → Reachable (i.read_from chunk).2
  | next_event (i : Inner) : Reachable i → Reachable i.next_client_event.2
  | send_info_resp (i : Inner) (r : RespHead) :
      Reachable i → Reachable (i.server_event (.InfoResponse r)).2
  | send_resp (i : Inner) (r : RespHead) :
      Reachable i → Reachable (i.server_event (.Response r)).2
  | send_data (i : Inner) (b : Bytes) :
      Reachable i → Reachable (i.server_event (.Data b)).2
  | send_eom (i : Inner) (t : Option HeaderMap) :
      Reachable i → Reachable (i.server_event (.EndOfMessage t)).2
  | send_closed (i : Inner) :
      Reachable i → Reachable (i.server_event .ConnectionClosed).2

/-! ## Well-formedness of heads

These predicates recover, over the raw byte-list model, the invariants
the Rust types enforce by construction: `http::Method` and
`http::HeaderName` are nonempty token strings (names stored lowercase),
`http::HeaderValue` holds value bytes, origin-form targets start with
`/`, a status code is in `100..=999`, and at most 50 headers fit the
parse array.  `goodValue` additionally carries the no-edge-whitespace
condition under which serialization round-trips (`httparse` strips
leading and trailing blanks from values on parse). -/

/-- Valid stored header name: nonempty lowercase token bytes. -/
def goodName (n : Bytes) : Prop :=
  n ≠ [] ∧ n.all tokenCharB = true ∧ lowerBytes n = n

/-- Valid header value whose parse is itself: value bytes, no leading
or trailing blank. -/
def goodValue (v : Bytes) : Prop :=
  v.all valueCharB = true ∧ dropWS v = v ∧ trimEnd v = v

/-- Valid header map for the 50-slot head parser. -/
def goodHeaders (hs : HeaderMap) : Prop :=
  hs.length ≤ 50 ∧ ∀ p ∈ hs, goodName p.1 ∧ goodValue p.2

/-- Well-formed request head. -/
def ReqHead.wf (r : ReqHead) : Prop :=
  r.method ≠ [] ∧ r.method.all tokenCharB = true ∧
  r.uri.path.head? = some 47 ∧
  r.uri.path.all (fun b => uriCharB b && b != 63) = true ∧
  (∀ q, r.uri.query = some q → q.all uriCharB = true) ∧
  goodHeaders r.headers

/-- Well-formed response head. -/
def RespHead.wf (r : RespHead) : Prop :=
  100 ≤ r.status ∧ r.status ≤ 999 ∧ goodHeaders r.headers

/-! ## Spec-side renderings

Definitions below follow the claims' wording (not the source) and exist
to be compared with the source-derived definitions above. -/

/-- Claim wording for the chunked test: the rightmost comma-separated
token of the last `Transfer-Encoding` value, trimmed, is `chunked`
ASCII-case-insensitively. -/
def specIsChunked (headers : HeaderMap) : Bool :=
  match (getAll headers transferEncodingBytes).getLast? with
  | some v => eqIgnoreCase (trimBytes (((splitOnComma v).getLast?).getD [])) chunkedBytes
  | none => false

/-- Claim wording for the response framing cascade. -/
def specRespFraming (r : RespHead) (method : Bytes) : FramingMethod :=
  if r.status = 204 ∨ r.status = 304 ∨ method = headMethod ∨
     (method = connectMethod ∧ 200 ≤ r.status ∧ r.status ≤ 299) then .ContentLength 0
  else if specIsChunked r.headers then .Chunked
  else
    match maybe_content_length r.headers with
    | some n => .ContentLength n
    | none => .Http10

/-- Amended wording for the chunked test: the last `Transfer-Encoding`
value is valid UTF-8, and its rightmost comma-separated token, trimmed
of Unicode whitespace, is `chunked` ASCII-case-insensitively. -/
def specIsChunkedU (headers : HeaderMap) : Bool :=
  match (getAll headers transferEncodingBytes).getLast? with
  | some v =>
    utf8Valid v &&
      eqIgnoreCase (uniTrim (((splitOnComma v).getLast?).getD [])) chunkedBytes
  | none => false

/-- Amended wording for the response framing cascade, differing from
the claim's only in the chunked test. -/
def specRespFramingU (r : RespHead) (method : Bytes) : FramingMethod :=
  if r.status = 204 ∨ r.status = 304 ∨ method = headMethod ∨
     (method = connectMethod ∧ 200 ≤ r.status ∧ r.status ≤ 299) then .ContentLength 0
  else if specIsChunkedU r.headers then .Chunked
  else
    match maybe_content_length r.headers with
    | some n => .ContentLength n
    | none => .Http10

/-- Claim wording for the `Expect: 100-continue` test: the last
comma-separated token of the (last) `Expect` header value, trimmed, is
`100-continue` ASCII-case-insensitively. -/
def specWantsContinue (headers : HeaderMap) : Bool :=
  match (getAll headers expectBytes).getLast? with
  | some v => eqIgnoreCase (trimBytes (((splitOnComma v).getLast?).getD [])) hundredContinueBytes
  | none => false

/-- Hex digit bytes produced by the chunked writer. -/
def hexDigB (b : Nat) : Bool := digitB b || (97 ≤ b && b ≤ 102)

/-- Value of a lowercase hex byte string, most significant digit first. -/
def hexToNat (l : Bytes) : Nat :=
  l.foldl (fun a b => a * 16 + (if digitB b then b - 48 else b - 87)) 0

/-! ## Concrete fixtures used by individual verification theorems -/

/-- A driver whose both machine sides are `Done` (reached after a full
request/response exchange with keep-alive off). -/
def doneInner : Inner :=
  { state := ⟨.Done, .Done, false, false, false⟩, in_buf := [], in_buf_closed := false
    client_wants_continue := false, body_reader := none }

/-- A bare `CONNECT /` request head, `CONNECT / HTTP/1.1` with no headers. -/
def connectReq : ReqHead := ⟨connectMethod, ⟨[47], none⟩, .Http11, []⟩

/-- A `GET /` request carrying `Expect: x, 100-continue`, whose *last
comma token* is `100-continue` but whose whole value is not. -/
def expectMixedReq : ReqHead :=
  ⟨getMethod, ⟨[47], none⟩, .Http11, [(expectBytes, [120, 44, 32] ++ hundredContinueBytes)]⟩

/-- Driver mid-exchange: the client is streaming a request body while
the server may respond, with a recorded CONNECT proposal. -/
def connStreamingInner : Inner :=
  { state := ⟨.SendBody, .SendResponse, true, true, false⟩, in_buf := [], in_buf_closed := false
    client_wants_continue := false, body_reader := none }

/-- Driver with a finished request that proposed CONNECT: the client
side paused in `MightSwitchProtocol`, the server about to respond. -/
def connPausedInner : Inner :=
  { state := ⟨.MightSwitchProtocol, .SendResponse, true, true, false⟩, in_buf := []
    in_buf_closed := false, client_wants_continue := false, body_reader := none }

/-- The wire bytes of `GET / HTTP/1.1` with no headers. -/
def getReqBytes : Bytes :=
  [71, 69, 84, 32, 47, 32, 72, 84, 84, 80, 47, 49, 46, 49, 13, 10, 13, 10]

/-! ## Character-class facts -/

theorem tokenChar_facts {b : Nat} (h : tokenCharB b = true) :
    b ≠ 32 ∧ b ≠ 13 ∧ b ≠ 10 ∧ b ≠ 58 := by
  refine ⟨?_, ?_, ?_, ?_⟩ <;> rintro rfl <;> exact absurd h (by decide)

theorem uriChar_facts {b : Nat} (h : uriCharB b = true) :
    b ≠ 32 ∧ b ≠ 13 ∧ b ≠ 10 := by
  refine ⟨?_, ?_, ?_⟩ <;> rintro rfl <;> exact absurd h (by decide)

theorem valueChar_facts {b : Nat} (h : valueCharB b = true) :
    b ≠ 13 ∧ b ≠ 10 := by
  refine ⟨?_, ?_⟩ <;> rintro rfl <;> exact absurd h (by decide)

/-! ## List-machinery lemmas for the parsers -/

theorem spanB_split (keep : Nat → Bool) :
    ∀ (l r : Bytes), (∀ b ∈ l, keep b = true) →
      (∀ c, r.head? = some c → keep c = false) → spanB keep (l ++ r) = (l, r) := by
  intro l
  induction l with
  | nil =>
    intro r _ hr
    cases r with
    | nil => rfl
    | cons c r' => simp [spanB, hr c rfl]
  | cons a l' ih =>
    intro r hl hr
    have ha : keep a = true := hl a (by simp)
    simp [spanB, ha, ih r (fun b hb => hl b (by simp [hb])) hr]

theorem dropLit_self : ∀ (p r : Bytes), dropLit p (p ++ r) = some r := by
  intro p
  induction p with
  | nil => intro r; rfl
  | cons a p' ih => intro r; simp [dropLit, ih]

theorem dropWS_noop {l : Bytes} (h : ∀ c, l.head? = some c → wsB c = false) :
    dropWS l = l := by
  cases l with
  | nil => rfl
  | cons c t => simp [dropWS, h c rfl]

theorem dropCrlfLead_noop {l : Bytes} (h : ∀ c, l.head? = some c → c ≠ 13 ∧ c ≠ 10) :
    dropCrlfLead l = l := by
  cases l with
  | nil => rfl
  | cons c t =>
    have hc := h c rfl
    simp [dropCrlfLead, hc.1, hc.2]

theorem dropWS_length : ∀ l : Bytes, (dropWS l).length ≤ l.length := by
  intro l
  induction l with
  | nil => simp [dropWS]
  | cons c t ih =>
    by_cases h : wsB c = true
    · simp [dropWS, h]; omega
    · simp [dropWS, h]

theorem dropWS_eq_head {l : Bytes} (h : dropWS l = l) :
    ∀ c, l.head? = some c → wsB c = false := by
  intro c hc
  cases l with
  | nil => simp at hc
  | cons a t =>
    obtain rfl : a = c := by simpa using hc
    by_contra hw
    simp only [Bool.not_eq_false] at hw
    have := dropWS_length t
    simp [dropWS, hw] at h
    have hlen := congrArg List.length h
    simp at hlen
    omega

/-! ## First-occurrence lemmas for the `CRLF CRLF` scan -/

theorem findSub4_cons_ne13 {b : Nat} {t : Bytes} (h : b ≠ 13) :
    findSub4 (b :: t) = (findSub4 t).map (· + 1) := by
  have hne : ¬ ((b :: t).take 4 = [13, 10, 13, 10]) := by
    intro heq
    rw [List.take_succ_cons] at heq
    exact h (List.head_eq_of_cons_eq heq)
  simp only [findSub4]
  rw [if_neg hne]

theorem findSub4_app_no13 :
    ∀ (l r : Bytes), (∀ b ∈ l, b ≠ 13) →
      findSub4 (l ++ r) = (findSub4 r).map (· + l.length) := by
  intro l
  induction l with
  | nil =>
    intro r _
    cases h : findSub4 r <;> simp [h]
  | cons a l' ih =>
    intro r hl
    rw [List.cons_append, findSub4_cons_ne13 (hl a (by simp)),
        ih r (fun b hb => hl b (by simp [hb]))]
    cases h : findSub4 r
    · simp [h]
    · simp [h]; omega

theorem findSub4_crlf_cons {r : Bytes} (h : ∀ c, r.head? = some c → c ≠ 13) :
    findSub4 (13 :: 10 :: r) = (findSub4 r).map (· + 2) := by
  have hne : ¬ ((13 :: 10 :: r).take 4 = [13, 10, 13, 10]) := by
    cases r with
    | nil => simp
    | cons c r' =>
      intro heq
      rw [List.take_succ_cons, List.take_succ_cons, List.take_succ_cons] at heq
      exact h c rfl (List.head_eq_of_cons_eq (List.tail_eq_of_cons_eq (List.tail_eq_of_cons_eq heq)))
  have h1 : findSub4 (13 :: 10 :: r) = (findSub4 (10 :: r)).map (· + 1) := by
    simp only [findSub4]
    rw [if_neg hne]
  rw [h1, findSub4_cons_ne13 (by norm_num)]
  cases hr : findSub4 r
  · simp [hr]
  · simp [hr]

theorem findSub4_terminator {body : Bytes} (h : ∀ b ∈ body, b ≠ 13) :
    findSub4 (body ++ [13, 10, 13, 10]) = some body.length := by
  rw [findSub4_app_no13 body [13, 10, 13, 10] h]
  have : findSub4 [13, 10, 13, 10] = some 0 := by decide
  simp [this]

/-! ## Round-trip lemmas for the header-block parser -/

theorem dropWS_concat {v r : Bytes} (h1 : dropWS v = v)
    (h2 : ∀ c, r.head? = some c → wsB c = false) : dropWS (v ++ r) = v ++ r := by
  cases v with
  | nil => simpa using dropWS_noop h2
  | cons a v' =>
    have ha : wsB a = false := dropWS_eq_head h1 a rfl
    simp [dropWS, ha]

theorem parseHeaderAfterName_eval (recur : Bytes → Except Unit (Option (HeaderMap × Bytes)))
    {n v : Bytes} (rest2 : Bytes) (hn : n ≠ [])
    (hv1 : v.all valueCharB = true) (hv2 : dropWS v = v) :
    parseHeaderAfterName recur n (32 :: (v ++ 13 :: 10 :: rest2)) =
      (recur rest2).map
        (Option.map (fun p => ((lowerBytes n, trimEnd v) :: p.1, p.2))) := by
  have hd : dropWS (32 :: (v ++ 13 :: 10 :: rest2)) = v ++ 13 :: 10 :: rest2 := by
    have h32 : wsB 32 = true := by decide
    rw [show dropWS (32 :: (v ++ 13 :: 10 :: rest2)) = dropWS (v ++ 13 :: 10 :: rest2) by
      simp [dropWS, h32]]
    refine dropWS_concat hv2 ?_
    intro c hc
    simp at hc
    subst hc
    decide
  have hspan : spanB (fun c => c != 13 && c != 10) (v ++ 13 :: 10 :: rest2) =
      (v, 13 :: 10 :: rest2) := by
    apply spanB_split
    · intro b hb
      have hbv : valueCharB b = true := by
        have := hv1
        rw [List.all_eq_true] at this
        exact this b hb
      obtain ⟨hb13, hb10⟩ := valueChar_facts hbv
      simp [hb13, hb10]
    · rintro c hc
      simp at hc
      simp [hc]
  unfold parseHeaderAfterName
  rw [if_neg hn, hd, hspan]
  rw [if_neg (by simp [hv1])]

theorem parseHeaderBlock_consMain {b : Nat} {t : Bytes} (f : Nat)
    (h13 : b ≠ 13) (h10 : b ≠ 10) :
    parseHeaderBlock (f + 1) (b :: t) =
      (match (spanB tokenCharB (b :: t)).2 with
       | 58 :: r2 =>
         parseHeaderAfterName (parseHeaderBlock f) ((spanB tokenCharB (b :: t)).1) r2
       | [] => .ok none
       | _ => .error ()) := by
  have h0 : parseHeaderBlock (f + 1) (b :: t) =
      (if b = 13 then
        (match t with
         | 10 :: rest => Except.ok (some (([] : HeaderMap), rest))
         | [] => .ok none
         | _ => .error ())
       else if b = 10 then .ok (some ([], t))
       else
         match (spanB tokenCharB (b :: t)).2 with
         | 58 :: r2 =>
           parseHeaderAfterName (parseHeaderBlock f) ((spanB tokenCharB (b :: t)).1) r2
         | [] => .ok none
         | _ => .error ()) := rfl
  rw [h0, if_neg h13, if_neg h10]

theorem parseHeaderBlock_crlf (f : Nat) (rest : Bytes) :
    parseHeaderBlock (f + 1) (13 :: 10 :: rest) = .ok (some ([], rest)) := rfl

theorem parseHeaderBlock_round :
    ∀ (hs : HeaderMap) (rest : Bytes) (fuel : Nat),
      (∀ p ∈ hs, goodName p.1 ∧ goodValue p.2) → hs.length < fuel →
      parseHeaderBlock fuel (headerLinesBytes hs ++ 13 :: 10 :: rest) =
        .ok (some (hs, rest)) := by
  intro hs
  induction hs with
  | nil =>
    intro rest fuel _ hlen
    cases fuel with
    | zero => omega
    | succ f => simpa [headerLinesBytes] using parseHeaderBlock_crlf f rest
  | cons p t ih =>
    obtain ⟨n, v⟩ := p
    intro rest fuel hgood hlen
    obtain ⟨⟨hn1, hn2, hn3⟩, hv1, hv2, hv3⟩ := hgood (n, v) (by simp)
    cases fuel with
    | zero => omega
    | succ f =>
      cases n with
      | nil => exact absurd rfl hn1
      | cons n0 n' =>
        have hn0 : tokenCharB n0 = true := by
          have := hn2
          rw [List.all_eq_true] at this
          exact this n0 (by simp)
        obtain ⟨h32, h13, h10, h58⟩ := tokenChar_facts hn0
        have hshape : headerLinesBytes ((n0 :: n', v) :: t) ++ 13 :: 10 :: rest =
            n0 :: (n' ++ 58 :: 32 :: (v ++ 13 :: 10 ::
              (headerLinesBytes t ++ 13 :: 10 :: rest))) := by
          simp [headerLinesBytes]
        rw [hshape, parseHeaderBlock_consMain f h13 h10]
        have hspan : spanB tokenCharB (n0 :: (n' ++ 58 :: 32 :: (v ++ 13 :: 10 ::
            (headerLinesBytes t ++ 13 :: 10 :: rest)))) =
            (n0 :: n', 58 :: 32 :: (v ++ 13 :: 10 ::
              (headerLinesBytes t ++ 13 :: 10 :: rest))) := by
          rw [show n0 :: (n' ++ 58 :: 32 :: (v ++ 13 :: 10 ::
              (headerLinesBytes t ++ 13 :: 10 :: rest))) =
            (n0 :: n') ++ 58 :: 32 :: (v ++ 13 :: 10 ::
              (headerLinesBytes t ++ 13 :: 10 :: rest)) by simp]
          apply spanB_split
          · intro b hb
            have := hn2
            rw [List.all_eq_true] at this
            exact this b hb
          · intro c hc
            simp at hc
            subst hc
            decide
        rw [hspan]
        show parseHeaderAfterName (parseHeaderBlock f) (n0 :: n')
            (32 :: (v ++ 13 :: 10 :: (headerLinesBytes t ++ 13 :: 10 :: rest))) = _
        rw [parseHeaderAfterName_eval (parseHeaderBlock f)
          (headerLinesBytes t ++ 13 :: 10 :: rest) hn1 hv1 hv2]
        rw [ih rest f (fun q hq => hgood q (by simp [hq])) (by simp at hlen; omega)]
        simp [Except.map, hn3, hv3]

/-! ## Round-trip lemmas for the start lines -/

theorem spanB_nospace_split {l : Bytes} (r : Bytes)
    (hl : ∀ b ∈ l, b ≠ 32) : spanB (· != 32) (l ++ 32 :: r) = (l, 32 :: r) := by
  apply spanB_split
  · intro b hb
    simp [hl b hb]
  · intro c hc
    simp at hc
    subst hc
    decide

theorem parseReqLine_round {m t : Bytes} (r : Bytes)
    (hm1 : m ≠ []) (hm2 : m.all tokenCharB = true)
    (ht1 : t ≠ []) (ht2 : t.all uriCharB = true) :
    parseReqLine (m ++ 32 :: (t ++ 32 :: (httpSlashOneDot ++ 49 :: 13 :: 10 :: r))) =
      some (m, t, 1, r) := by
  have hm' : ∀ b ∈ m, b ≠ 32 := by
    intro b hb
    have := hm2
    rw [List.all_eq_true] at this
    exact (tokenChar_facts (this b hb)).1
  have ht' : ∀ b ∈ t, b ≠ 32 := by
    intro b hb
    have := ht2
    rw [List.all_eq_true] at this
    exact (uriChar_facts (this b hb)).1
  have hspanm := spanB_nospace_split (t ++ 32 :: (httpSlashOneDot ++ 49 :: 13 :: 10 :: r)) hm'
  have hspant := spanB_nospace_split (httpSlashOneDot ++ 49 :: 13 :: 10 :: r) ht'
  have hm_1 : (spanB (· != 32) (m ++ 32 :: (t ++ 32 ::
      (httpSlashOneDot ++ 49 :: 13 :: 10 :: r)))).1 = m := by rw [hspanm]
  have hm_2 : (spanB (· != 32) (m ++ 32 :: (t ++ 32 ::
      (httpSlashOneDot ++ 49 :: 13 :: 10 :: r)))).2 =
      32 :: (t ++ 32 :: (httpSlashOneDot ++ 49 :: 13 :: 10 :: r)) := by rw [hspanm]
  have ht_1 : (spanB (· != 32) (t ++ 32 ::
      (httpSlashOneDot ++ 49 :: 13 :: 10 :: r))).1 = t := by rw [hspant]
  have ht_2 : (spanB (· != 32) (t ++ 32 ::
      (httpSlashOneDot ++ 49 :: 13 :: 10 :: r))).2 =
      32 :: (httpSlashOneDot ++ 49 :: 13 :: 10 :: r) := by rw [hspant]
  simp only [parseReqLine, hm_1, hm_2, ht_1, ht_2,
    dropLit_self httpSlashOneDot (49 :: 13 :: 10 :: r)]
  rw [if_neg (by simp [hm1, hm2]), if_neg (by simp [ht1, ht2])]

theorem digits3_round {s : Nat} (h1 : 100 ≤ s) (h2 : s ≤ 999) :
    digitB (48 + s / 100) = true ∧ digitB (48 + s / 10 % 10) = true ∧
      digitB (48 + s % 10) = true ∧
      (48 + s / 100 - 48) * 100 + (48 + s / 10 % 10 - 48) * 10 + (48 + s % 10 - 48) = s := by
  unfold digitB
  refine ⟨?_, ?_, ?_, ?_⟩
  · simp only [Bool.and_eq_true, decide_eq_true_eq]
    omega
  · simp only [Bool.and_eq_true, decide_eq_true_eq]
    omega
  · simp only [Bool.and_eq_true, decide_eq_true_eq]
    omega
  · omega

theorem parseRespLine_round_reason {s : Nat} {reason : Bytes} (r : Bytes)
    (h1 : 100 ≤ s) (h2 : s ≤ 999) (hr : reason.all reasonCharB = true) :
    parseRespLine (httpSlashOneDot ++ 49 :: 32 ::
      (digits3 s ++ 32 :: (reason ++ 13 :: 10 :: r))) = some (1, s, r) := by
  obtain ⟨hd1, hd2, hd3, hsum⟩ := digits3_round h1 h2
  have hspan : spanB (fun b => b != 13 && b != 10) (reason ++ 13 :: 10 :: r) =
      (reason, 13 :: 10 :: r) := by
    apply spanB_split
    · intro b hb
      have hbv : reasonCharB b = true := by
        have := hr
        rw [List.all_eq_true] at this
        exact this b hb
      obtain ⟨hb13, hb10⟩ := valueChar_facts hbv
      simp [hb13, hb10]
    · intro c hc
      simp at hc
      subst hc
      decide
  have hs1 : (spanB (fun b => b != 13 && b != 10) (reason ++ 13 :: 10 :: r)).1 = reason := by
    rw [hspan]
  have hs2 : (spanB (fun b => b != 13 && b != 10) (reason ++ 13 :: 10 :: r)).2 =
      13 :: 10 :: r := by rw [hspan]
  simp only [parseRespLine, digits3, List.cons_append, List.nil_append,
    dropLit_self, hs1, hs2]
  rw [if_neg (by simp), if_neg (by simp [hd1, hd2, hd3]), if_neg (by simp [hr])]
  simp only [Option.some.injEq, Prod.mk.injEq]
  refine ⟨trivial, ?_, trivial⟩
  omega

theorem parseRespLine_round_noreason {s : Nat} (r : Bytes)
    (h1 : 100 ≤ s) (h2 : s ≤ 999) :
    parseRespLine (httpSlashOneDot ++ 49 :: 32 :: (digits3 s ++ 13 :: 10 :: r)) =
      some (1, s, r) := by
  obtain ⟨hd1, hd2, hd3, hsum⟩ := digits3_round h1 h2
  simp only [parseRespLine, digits3, List.cons_append, List.nil_append, dropLit_self]
  rw [if_neg (by simp), if_neg (by simp [hd1, hd2, hd3])]
  simp only [Option.some.injEq, Prod.mk.injEq]
  refine ⟨trivial, ?_, trivial⟩
  omega

/-! ## Locating the head terminator in serialized output -/

theorem headerLines_len_ge : ∀ hs : HeaderMap, hs.length ≤ (headerLinesBytes hs).length := by
  intro hs
  induction hs with
  | nil => simp [headerLinesBytes]
  | cons p t ih =>
    obtain ⟨n, v⟩ := p
    simp only [headerLinesBytes, List.length_cons, List.length_append]
    simp at ih ⊢
    omega

theorem findSub4_headers :
    ∀ hs : HeaderMap, (∀ p ∈ hs, goodName p.1 ∧ goodValue p.2) →
      findSub4 (13 :: 10 :: (headerLinesBytes hs ++ [13, 10])) =
        some (headerLinesBytes hs).length := by
  intro hs
  induction hs with
  | nil =>
    intro _
    simp only [headerLinesBytes, List.nil_append, List.length_nil]
    decide
  | cons p t ih =>
    obtain ⟨n, v⟩ := p
    intro hgood
    obtain ⟨⟨hn1, hn2, hn3⟩, hv1, hv2, hv3⟩ := hgood (n, v) (by simp)
    cases n with
    | nil => exact absurd rfl hn1
    | cons n0 n' =>
      have hn0 : tokenCharB n0 = true := by
        have := hn2
        rw [List.all_eq_true] at this
        exact this n0 (by simp)
      have hbody13 : ∀ b ∈ (n0 :: n') ++ 58 :: 32 :: v, b ≠ 13 := by
        intro b hb
        rcases List.mem_append.mp hb with hbn | hbv
        · have := hn2
          rw [List.all_eq_true] at this
          exact (tokenChar_facts (this b hbn)).2.1
        · rcases hbv with _ | ⟨_, _ | ⟨_, hbv⟩⟩
          · norm_num
          · norm_num
          · have := hv1
            rw [List.all_eq_true] at this
            exact (valueChar_facts (this b hbv)).1
      have hshape : headerLinesBytes ((n0 :: n', v) :: t) ++ ([13, 10] : Bytes) =
          ((n0 :: n') ++ 58 :: 32 :: v) ++ 13 :: 10 ::
            (headerLinesBytes t ++ [13, 10]) := by
        simp [headerLinesBytes]
      rw [hshape]
      rw [findSub4_crlf_cons (by
        intro c hc
        cases n' <;> simp at hc <;> subst hc
        · exact (tokenChar_facts hn0).2.1
        · exact (tokenChar_facts (by
            have := hn2
            rw [List.all_eq_true] at this
            exact this _ (by simp))).2.1)]
      rw [findSub4_app_no13 _ _ hbody13]
      rw [show findSub4 (13 :: 10 :: (headerLinesBytes t ++ [13, 10])) =
        some (headerLinesBytes t).length from ih (fun q hq => hgood q (by simp [hq]))]
      simp [headerLinesBytes]
      omega

/-! ## Full head round trips -/

theorem parseTarget_round (u : Uri) (hp : u.path.head? = some 47)
    (hpc : u.path.all (fun b => uriCharB b && b != 63) = true) :
    parseTarget u.targetBytes = some u := by
  obtain ⟨p, q⟩ := u
  simp only at hp hpc
  cases p with
  | nil => simp at hp
  | cons p0 p' =>
    have hp0 : p0 = 47 := by simpa using hp
    subst hp0
    have hall : ∀ b ∈ 47 :: p', (b != 63) = true := by
      intro b hb
      have := hpc
      rw [List.all_eq_true] at this
      exact (Bool.and_elim_right (this b hb))
    cases q with
    | none =>
      have hshape : Uri.targetBytes ⟨47 :: p', none⟩ = (47 :: p') ++ [] := by
        simp [Uri.targetBytes]
      have hspan := spanB_split (· != 63) (47 :: p') [] hall (by intro c hc; simp at hc)
      have h2 : (spanB (· != 63) ((47 :: p') ++ ([] : Bytes))).2 = [] := by rw [hspan]
      have h1 : (spanB (· != 63) ((47 :: p') ++ ([] : Bytes))).1 = 47 :: p' := by rw [hspan]
      rw [hshape]
      simp only [parseTarget, List.append_nil] at h1 h2 ⊢
      simp [h1, h2]
    | some qs =>
      have hshape : Uri.targetBytes ⟨47 :: p', some qs⟩ = (47 :: p') ++ 63 :: qs := by
        simp [Uri.targetBytes]
      have hspan := spanB_split (· != 63) (47 :: p') (63 :: qs) hall
        (by intro c hc; simp at hc; subst hc; decide)
      have h1 : (spanB (· != 63) ((47 :: p') ++ 63 :: qs)).1 = 47 :: p' := by rw [hspan]
      have h2 : (spanB (· != 63) ((47 :: p') ++ 63 :: qs)).2 = 63 :: qs := by rw [hspan]
      rw [hshape]
      simp only [List.cons_append] at h1 h2 ⊢
      simp [parseTarget, h1, h2]

theorem ReqHead_from_buf_round :
    ∀ r : ReqHead, r.wf → r.version = .Http11 →
      ∀ out, r.write_to_buf = some out → ReqHead.from_buf out = (.ok (some r), []) := by
  rintro ⟨m, u, ver, hs⟩ ⟨hm1, hm2, hp, hpc, hq, hhslen, hhsgood⟩ hv out hout
  simp only at hv hout ⊢
  subst hv
  simp only [ReqHead.write_to_buf, Option.some.injEq] at hout
  subst hout
  -- facts about the pieces
  have htchars : (Uri.targetBytes u).all uriCharB = true := by
    rw [List.all_eq_true]
    intro b hb
    rcases List.mem_append.mp hb with hbp | hbq
    · have := hpc
      rw [List.all_eq_true] at this
      exact Bool.and_elim_left (this b hbp)
    · cases hq2 : u.query with
      | none => rw [hq2] at hbq; simp at hbq
      | some qs =>
        rw [hq2] at hbq
        simp at hbq
        rcases hbq with rfl | hbq
        · decide
        · have := hq qs hq2
          rw [List.all_eq_true] at this
          exact this b hbq
  have htne : Uri.targetBytes u ≠ [] := by
    unfold Uri.targetBytes
    cases hp2 : u.path with
    | nil => rw [hp2] at hp; simp at hp
    | cons a t => simp
  have hno13m : ∀ b ∈ m, b ≠ 13 := by
    intro b hb
    have := hm2
    rw [List.all_eq_true] at this
    exact (tokenChar_facts (this b hb)).2.1
  have hno13t : ∀ b ∈ Uri.targetBytes u, b ≠ 13 := by
    intro b hb
    have := htchars
    rw [List.all_eq_true] at this
    exact (uriChar_facts (this b hb)).2.1
  have hbody13 : ∀ b ∈ m ++ 32 :: (Uri.targetBytes u ++ 32 :: http11Bytes), b ≠ 13 := by
    intro b hb
    rcases List.mem_append.mp hb with hbm | hbr
    · exact hno13m b hbm
    · rcases hbr with _ | ⟨_, hbr⟩
      · norm_num
      · rcases List.mem_append.mp hbr with hbt | hbh
        · exact hno13t b hbt
        · rcases hbh with _ | ⟨_, hbh⟩
          · norm_num
          · exact (by decide : ∀ x ∈ http11Bytes, x ≠ 13) b hbh
  -- locate the terminator
  have hshape1 : m ++ [32] ++ Uri.targetBytes u ++ [32] ++ http11Bytes ++ [13, 10] ++
      headerLinesBytes hs ++ [13, 10] =
      (m ++ 32 :: (Uri.targetBytes u ++ 32 :: http11Bytes)) ++ 13 :: 10 ::
        (headerLinesBytes hs ++ [13, 10]) := by
    simp
  have hfind : findSub4 (m ++ [32] ++ Uri.targetBytes u ++ [32] ++ http11Bytes ++ [13, 10] ++
      headerLinesBytes hs ++ [13, 10]) =
      some ((headerLinesBytes hs).length +
        (m ++ 32 :: (Uri.targetBytes u ++ 32 :: http11Bytes)).length) := by
    rw [hshape1, findSub4_app_no13 _ _ hbody13]
    have hh : findSub4 (13 :: 10 :: (headerLinesBytes hs ++ [13, 10])) =
        some (headerLinesBytes hs).length := findSub4_headers hs hhsgood
    rw [hh]
    simp
  -- the parsed head
  have hhead : parseReqHead (m ++ [32] ++ Uri.targetBytes u ++ [32] ++ http11Bytes ++ [13, 10] ++
      headerLinesBytes hs ++ [13, 10]) = some ⟨m, u, .Http11, hs⟩ := by
    have hm0 : ∀ c, (m ++ [32] ++ Uri.targetBytes u ++ [32] ++ http11Bytes ++ [13, 10] ++
        headerLinesBytes hs ++ [13, 10]).head? = some c → c ≠ 13 ∧ c ≠ 10 := by
      intro c hc
      cases m with
      | nil => exact absurd rfl hm1
      | cons m0 m' =>
        simp at hc
        subst hc
        have hm00 : tokenCharB m0 = true := by
          have := hm2
          rw [List.all_eq_true] at this
          exact this m0 (by simp)
        exact ⟨(tokenChar_facts hm00).2.1, (tokenChar_facts hm00).2.2.1⟩
    have hshape2 : m ++ [32] ++ Uri.targetBytes u ++ [32] ++ http11Bytes ++ [13, 10] ++
        headerLinesBytes hs ++ [13, 10] =
        m ++ 32 :: (Uri.targetBytes u ++ 32 :: (httpSlashOneDot ++ 49 :: 13 :: 10 ::
          (headerLinesBytes hs ++ [13, 10]))) := by
      simp [http11Bytes, httpSlashOneDot]
    have hline : parseReqLine (dropCrlfLead (m ++ [32] ++ Uri.targetBytes u ++ [32] ++
        http11Bytes ++ [13, 10] ++ headerLinesBytes hs ++ [13, 10])) =
        some (m, Uri.targetBytes u, 1, headerLinesBytes hs ++ [13, 10]) := by
      rw [dropCrlfLead_noop hm0, hshape2]
      exact parseReqLine_round _ hm1 hm2 htne htchars
    have hblock : parseHeaderBlock (headerLinesBytes hs ++ ([13, 10] : Bytes)).length
        (headerLinesBytes hs ++ [13, 10]) = .ok (some (hs, [])) := by
      have := headerLines_len_ge hs
      exact parseHeaderBlock_round hs [] _ hhsgood (by simp; omega)
    simp only [parseReqHead, hline, hblock]
    rw [if_neg (by have h50 := hhslen; simp at h50; omega)]
    rw [parseTarget_round u hp hpc]
    simp
  -- assemble `from_buf`
  have hlen4 : (headerLinesBytes hs).length +
      (m ++ 32 :: (Uri.targetBytes u ++ 32 :: http11Bytes)).length + 4 =
      (m ++ [32] ++ Uri.targetBytes u ++ [32] ++ http11Bytes ++ [13, 10] ++
        headerLinesBytes hs ++ [13, 10]).length := by
    simp [http11Bytes]
    omega
  simp only [ReqHead.from_buf, hfind]
  rw [hlen4, List.take_length, List.drop_length, hhead]

theorem canonicalReason_ok : ∀ s < 1000, ((canonicalReason s).getD []).all reasonCharB = true := by
  decide

theorem digits3_no13 {s : Nat} : ∀ b ∈ digits3 s, b ≠ 13 ∧ b ≠ 10 := by
  intro b hb
  simp [digits3] at hb
  omega

theorem RespHead_from_buf_round :
    ∀ r : RespHead, r.wf → r.version = .Http11 →
      ∀ out, r.write_to_buf = some out → RespHead.from_buf out = (.ok (some r), []) := by
  rintro ⟨s, ver, hs⟩ ⟨h1, h2, hhslen, hhsgood⟩ hv out hout
  simp only at h1 h2 hhslen hhsgood hv hout ⊢
  subst hv
  simp only [RespHead.write_to_buf, Option.some.injEq] at hout
  subst hout
  have hreason : ((canonicalReason s).getD []).all reasonCharB = true :=
    canonicalReason_ok s (by omega)
  -- the status-line body contains no CR
  have hbody13 : ∀ b ∈ http11Bytes ++ 32 :: (digits3 s ++
      (match canonicalReason s with | some reason => 32 :: reason | none => [])), b ≠ 13 := by
    intro b hb
    rcases List.mem_append.mp hb with hbh | hbr
    · exact (by decide : ∀ x ∈ http11Bytes, x ≠ 13) b hbh
    · rcases hbr with _ | ⟨_, hbr⟩
      · norm_num
      · rcases List.mem_append.mp hbr with hbd | hbm
        · exact (digits3_no13 b hbd).1
        · cases hcr : canonicalReason s with
          | none => rw [hcr] at hbm; simp at hbm
          | some reason =>
            rw [hcr] at hbm
            rcases hbm with _ | ⟨_, hbm⟩
            · norm_num
            · have hrr : reason.all reasonCharB = true := by
                rw [hcr] at hreason; simpa using hreason
              have := hrr
              rw [List.all_eq_true] at this
              exact (valueChar_facts (this b hbm)).1
  have hshape1 : http11Bytes ++ [32] ++ digits3 s ++
      (match canonicalReason s with | some reason => 32 :: reason | none => []) ++
      [13, 10] ++ headerLinesBytes hs ++ [13, 10] =
      (http11Bytes ++ 32 :: (digits3 s ++
        (match canonicalReason s with | some reason => 32 :: reason | none => []))) ++
        13 :: 10 :: (headerLinesBytes hs ++ [13, 10]) := by
    simp
  have hfind : findSub4 (http11Bytes ++ [32] ++ digits3 s ++
      (match canonicalReason s with | some reason => 32 :: reason | none => []) ++
      [13, 10] ++ headerLinesBytes hs ++ [13, 10]) =
      some ((headerLinesBytes hs).length +
        (http11Bytes ++ 32 :: (digits3 s ++
          (match canonicalReason s with | some reason => 32 :: reason | none => []))).length) := by
    rw [hshape1, findSub4_app_no13 _ _ hbody13, findSub4_headers hs hhsgood]
    simp
  have hhead : parseRespHead (http11Bytes ++ [32] ++ digits3 s ++
      (match canonicalReason s with | some reason => 32 :: reason | none => []) ++
      [13, 10] ++ headerLinesBytes hs ++ [13, 10]) = some ⟨s, .Http11, hs⟩ := by
    have hdrop : ∀ c, (http11Bytes ++ [32] ++ digits3 s ++
        (match canonicalReason s with | some reason => 32 :: reason | none => []) ++
        [13, 10] ++ headerLinesBytes hs ++ [13, 10]).head? = some c → c ≠ 13 ∧ c ≠ 10 := by
      intro c hc
      simp [http11Bytes] at hc
      omega
    have hline : parseRespLine (dropCrlfLead (http11Bytes ++ [32] ++ digits3 s ++
        (match canonicalReason s with | some reason => 32 :: reason | none => []) ++
        [13, 10] ++ headerLinesBytes hs ++ [13, 10])) =
        some (1, s, headerLinesBytes hs ++ [13, 10]) := by
      rw [dropCrlfLead_noop hdrop]
      cases hcr : canonicalReason s with
      | none =>
        have hshape2 : http11Bytes ++ [32] ++ digits3 s ++ ([] : Bytes) ++
            [13, 10] ++ headerLinesBytes hs ++ [13, 10] =
            httpSlashOneDot ++ 49 :: 32 :: (digits3 s ++ 13 :: 10 ::
              (headerLinesBytes hs ++ [13, 10])) := by
          simp [http11Bytes, httpSlashOneDot]
        rw [hshape2]
        exact parseRespLine_round_noreason _ h1 h2
      | some reason =>
        have hrr : reason.all reasonCharB = true := by
          rw [hcr] at hreason; simpa using hreason
        have hshape2 : http11Bytes ++ [32] ++ digits3 s ++ (32 :: reason) ++
            [13, 10] ++ headerLinesBytes hs ++ [13, 10] =
            httpSlashOneDot ++ 49 :: 32 :: (digits3 s ++ 32 :: (reason ++ 13 :: 10 ::
              (headerLinesBytes hs ++ [13, 10]))) := by
          simp [http11Bytes, httpSlashOneDot]
        rw [hshape2]
        exact parseRespLine_round_reason _ h1 h2 hrr
    have hblock : parseHeaderBlock (headerLinesBytes hs ++ ([13, 10] : Bytes)).length
        (headerLinesBytes hs ++ [13, 10]) = .ok (some (hs, [])) := by
      have := headerLines_len_ge hs
      exact parseHeaderBlock_round hs [] _ hhsgood (by simp; omega)
    simp only [parseRespHead, hline, hblock]
    rw [if_neg (by omega), if_neg (by omega)]
    simp
  have hlen4 : (headerLinesBytes hs).length +
      (http11Bytes ++ 32 :: (digits3 s ++
        (match canonicalReason s with | some reason => 32 :: reason | none => []))).length + 4 =
      (http11Bytes ++ [32] ++ digits3 s ++
        (match canonicalReason s with | some reason => 32 :: reason | none => []) ++
        [13, 10] ++ headerLinesBytes hs ++ [13, 10]).length := by
    simp
    omega
  simp only [RespHead.from_buf, hfind]
  rw [hlen4, List.take_length, List.drop_length, hhead]

/-! ## State-machine facts established over the whole finite state space -/

theorem st_sendBody_iff (s : State) :
    (s.state_transitions.client = .SendBody) ↔ s.client = .SendBody := by
  obtain ⟨c, sv, ka, pc, pu⟩ := s
  revert c sv ka pc pu
  decide

theorem st_msp_switched : ∀ (ka pu kb : Bool),
    ((if kb then State.state_transitions ⟨.MightSwitchProtocol, .SwitchedProtocol, ka, true, pu⟩
      else (State.state_transitions
        ⟨.MightSwitchProtocol, .SwitchedProtocol, ka, true, pu⟩).disable_keep_alive).client =
      .SwitchedProtocol) ∧
    ((if kb then State.state_transitions ⟨.MightSwitchProtocol, .SwitchedProtocol, ka, true, pu⟩
      else (State.state_transitions
        ⟨.MightSwitchProtocol, .SwitchedProtocol, ka, true, pu⟩).disable_keep_alive).server =
      .SwitchedProtocol) := by
  decide

theorem st_sendBody_switched : ∀ (ka pu kb : Bool),
    ((if kb then State.state_transitions ⟨.SendBody, .SwitchedProtocol, ka, true, pu⟩
      else (State.state_transitions
        ⟨.SendBody, .SwitchedProtocol, ka, true, pu⟩).disable_keep_alive).client = .SendBody) ∧
    ((if kb then State.state_transitions ⟨.SendBody, .SwitchedProtocol, ka, true, pu⟩
      else (State.state_transitions
        ⟨.SendBody, .SwitchedProtocol, ka, true, pu⟩).disable_keep_alive).server =
      .SwitchedProtocol) := by
  decide

/-! ## Lifted state lemmas for the driver invariant -/

theorem client_send_request {c c' : Client} (h : c.send .Request = .ok c') :
    c' = .SendBody := by
  cases c <;> simp [Client.send] at h
  exact h.symm

theorem client_event_request_ok {s s' : State} (h : s.client_event .Request = .ok s') :
    s'.client = .SendBody := by
  unfold State.client_event at h
  split at h
  · exact absurd h (by simp)
  · rename_i c hc
    split at h
    · exact absurd h (by simp)
    · simp only [Except.ok.injEq] at h
      have hc' : c = .SendBody := client_send_request hc
      subst hc'
      rw [← h]
      exact (st_sendBody_iff _).mpr rfl

theorem server_event_core_client_iff {s s' : State} {e : StateEvent} {sw : Option SwitchEvent}
    (h : State.server_event_core s e sw = .ok s') :
    s'.client = .SendBody ↔ s.client = .SendBody := by
  unfold State.server_event_core at h
  split at h
  · exact absurd h (by simp)
  · simp only [Except.ok.injEq] at h
    rw [← h]
    exact st_sendBody_iff _

theorem server_event_client_iff {s s' : State} {e : StateEvent} {sw : Option SwitchEvent}
    (h : s.server_event e sw = .ok s') : s'.client = .SendBody ↔ s.client = .SendBody := by
  unfold State.server_event at h
  split at h
  · split at h
    · exact absurd h (by simp)
    · exact server_event_core_client_iff h
  · split at h
    · exact absurd h (by simp)
    · exact server_event_core_client_iff h
  · exact server_event_core_client_iff h

theorem disable_keep_alive_client_iff (s : State) :
    (s.disable_keep_alive.client = .SendBody) ↔ s.client = .SendBody :=
  st_sendBody_iff _

theorem proposals_client_iff (s : State) (P Q : Prop) [Decidable P] [Decidable Q] :
    (((if Q then (if P then s.connect_proposal else s).upgrade_proposal
       else (if P then s.connect_proposal else s)).client = .SendBody) ↔
      s.client = .SendBody) := by
  by_cases hq : Q <;> by_cases hp : P <;>
    simp [hq, hp, State.connect_proposal, State.upgrade_proposal, st_sendBody_iff]

/-! ## Driver-level lemmas -/

theorem inner_client_event_request_ok_eq {i : Inner} {req : ReqHead} {s2 : State}
    (hc : (if containsKey req.headers upgradeBytes
        then (if req.method = connectMethod then i.state.connect_proposal
              else i.state).upgrade_proposal
        else (if req.method = connectMethod then i.state.connect_proposal
              else i.state)).client_event .Request = .ok s2) :
    i.client_event (.Request req) = (.ok (),
      { i with state := if req.can_keep_alive then s2 else s2.disable_keep_alive
               client_wants_continue := reqWantsContinue req }) := by
  simp [Inner.client_event, Event.to_state_event, hc]

theorem inner_client_event_request_err_eq {i : Inner} {req : ReqHead} {er : StateError}
    (hc : (if containsKey req.headers upgradeBytes
        then (if req.method = connectMethod then i.state.connect_proposal
              else i.state).upgrade_proposal
        else (if req.method = connectMethod then i.state.connect_proposal
              else i.state)).client_event .Request = .error er) :
    i.client_event (.Request req) = (.error (.state er),
      { i with state := if containsKey req.headers upgradeBytes
          then (if req.method = connectMethod then i.state.connect_proposal
                else i.state).upgrade_proposal
          else (if req.method = connectMethod then i.state.connect_proposal
                else i.state) }) := by
  simp [Inner.client_event, Event.to_state_event, hc]

theorem inner_client_event_request_spec (i : Inner) (req : ReqHead) :
    (((i.client_event (.Request req)).1 = .ok () ∧
      (i.client_event (.Request req)).2.state.client = .SendBody) ∨
     ((∃ er, (i.client_event (.Request req)).1 = .error (.state er)) ∧
      ((i.client_event (.Request req)).2.state.client = .SendBody ↔
        i.state.client = .SendBody))) ∧
    (i.client_event (.Request req)).2.body_reader = i.body_reader ∧
    (i.client_event (.Request req)).2.in_buf = i.in_buf ∧
    (i.client_event (.Request req)).2.in_buf_closed = i.in_buf_closed := by
  cases hc : (if containsKey req.headers upgradeBytes
      then (if req.method = connectMethod then i.state.connect_proposal
            else i.state).upgrade_proposal
      else (if req.method = connectMethod then i.state.connect_proposal
            else i.state)).client_event .Request with
  | ok s2 =>
    rw [inner_client_event_request_ok_eq hc]
    refine ⟨Or.inl ⟨rfl, ?_⟩, rfl, rfl, rfl⟩
    have hs2 : s2.client = .SendBody := client_event_request_ok hc
    by_cases hk : ReqHead.can_keep_alive req = true
    · simp [hk, hs2]
    · simp only [Bool.not_eq_true] at hk
      simp [hk]
      rw [disable_keep_alive_client_iff]
      exact hs2
  | error er =>
    rw [inner_client_event_request_err_eq hc]
    refine ⟨Or.inr ⟨⟨er, rfl⟩, ?_⟩, rfl, rfl, rfl⟩
    exact proposals_client_iff i.state _ _

theorem inner_server_event_inv (i : Inner) (e : Event) :
    (i.server_event e).2.body_reader = i.body_reader ∧
    ((i.server_event e).2.state.client = .SendBody ↔ i.state.client = .SendBody) ∧
    (i.server_event e).2.in_buf = i.in_buf ∧
    (i.server_event e).2.in_buf_closed = i.in_buf_closed := by
  unfold Inner.server_event
  cases hs : i.state.server_event e.to_state_event (switchFor i.state e) with
  | error er => simp [hs]
  | ok s2 =>
    have hiff := server_event_client_iff hs
    cases e with
    | Response r =>
      by_cases hk : RespHead.can_keep_alive r = true
      · simp [hs, hk, hiff]
      · simp only [Bool.not_eq_true] at hk
        simp [hs, hk]
        rw [disable_keep_alive_client_iff]
        exact hiff
    | Request r => simp [hs, hiff]
    | InfoResponse r => simp [hs, hiff]
    | Data b => simp [hs, hiff]
    | EndOfMessage t => simp [hs, hiff]
    | ConnectionClosed => simp [hs, hiff]

theorem inner_next_inv (i : Inner)
    (hinv : i.body_reader.isSome = true ↔ i.state.client = .SendBody) :
    (i.next_client_event.2.body_reader.isSome = true ↔
      i.next_client_event.2.state.client = .SendBody) := by
  unfold Inner.next_client_event
  cases hcl : i.state.client with
  | Idle =>
    have hrd : i.body_reader = none := by
      cases hb : i.body_reader with
      | none => rfl
      | some br => exact absurd (hinv.mp (by simp [hb])) (by simp [hcl])
    rcases hfb : ReqHead.from_buf i.in_buf with ⟨res, rest⟩
    cases res with
    | error pe =>
      simp only [hfb]
      simp [hrd, State.client_error, st_sendBody_iff, hcl]
    | ok o =>
      cases o with
      | none =>
        simp only [hfb]
        simp [hrd, hcl]
      | some r =>
        simp only [hfb, hrd]
        obtain ⟨hdisj, hbr, _, _⟩ := inner_client_event_request_spec
          { state := i.state, in_buf := rest, in_buf_closed := i.in_buf_closed,
            client_wants_continue := i.client_wants_continue, body_reader := none } r
        rcases hdisj with ⟨hok, hsb⟩ | ⟨⟨er, herr⟩, hiff⟩
        · simp [hok, hsb]
        · simp only [herr, hbr]
          simp [hiff, hcl]
  | SendBody =>
    obtain ⟨br, hbr⟩ : ∃ br, i.body_reader = some br := by
      cases hb : i.body_reader with
      | some br => exact ⟨br, rfl⟩
      | none => exact absurd (hinv.mpr hcl) (by simp [hb])
    simp only [hbr]
    by_cases hbuf : i.in_buf = []
    · rw [if_neg (by simp [hbuf])]
      by_cases hc : i.in_buf_closed = true
      · rw [if_pos hc]
        cases he : br.eof with
        | ok ev => simp [hbr, hcl]
        | error er => simp [he, hbr, hcl]
      · rw [if_neg hc]
        simp [hbr, hcl]
    · rw [if_pos hbuf]
      cases hx : (br.next_event i.in_buf).1 with
      | ok ev => simp [hx, hcl]
      | error er => simp [hx, hcl]
  | Error => exact hinv
  | Done => exact hinv
  | MustClose => exact hinv
  | Closed => exact hinv
  | MightSwitchProtocol => exact hinv
  | SwitchedProtocol => exact hinv

theorem inner_read_from_inv (i : Inner) (chunk : Bytes)
    (hinv : i.body_reader.isSome = true ↔ i.state.client = .SendBody) :
    ((i.read_from chunk).2.body_reader.isSome = true ↔
      (i.read_from chunk).2.state.client = .SendBody) := by
  unfold Inner.read_from
  by_cases h1 : chunk = []
  · rw [if_pos h1]
    exact hinv
  · rw [if_neg h1]
    by_cases h2 : i.in_buf_closed = true
    · rw [if_pos h2]
      exact hinv
    · rw [if_neg h2]
      exact hinv

theorem reachable_inv :
    ∀ i : Inner, Reachable i → (i.body_reader.isSome = true ↔ i.state.client = .SendBody) := by
  intro i h
  induction h with
  | init buf => simp [Inner.from_bufs, State.new]
  | read_from i chunk _ ih => exact inner_read_from_inv i chunk ih
  | next_event i _ ih => exact inner_next_inv i ih
  | send_info_resp i r _ ih =>
    obtain ⟨h1, h2, _, _⟩ := inner_server_event_inv i (.InfoResponse r)
    rw [h1, h2]
    exact ih
  | send_resp i r _ ih =>
    obtain ⟨h1, h2, _, _⟩ := inner_server_event_inv i (.Response r)
    rw [h1, h2]
    exact ih
  | send_data i b _ ih =>
    obtain ⟨h1, h2, _, _⟩ := inner_server_event_inv i (.Data b)
    rw [h1, h2]
    exact ih
  | send_eom i t _ ih =>
    obtain ⟨h1, h2, _, _⟩ := inner_server_event_inv i (.EndOfMessage t)
    rw [h1, h2]
    exact ih
  | send_closed i _ ih =>
    obtain ⟨h1, h2, _, _⟩ := inner_server_event_inv i .ConnectionClosed
    rw [h1, h2]
    exact ih

/-! ## Comma splitting: the rightmost `rsplit` segment is the last token -/

theorem takeNonComma_no44 : ∀ {l : Bytes}, 44 ∉ l → takeNonComma l = l := by
  intro l
  induction l with
  | nil => intro _; rfl
  | cons b t ih =>
    intro h
    have hb : ¬ (b = 44) := by intro hb; exact h (by simp [hb])
    simp [takeNonComma, hb, ih (fun hm => h (by simp [hm]))]

theorem takeNonComma_app44 : ∀ l : Bytes, takeNonComma (l ++ [44]) = takeNonComma l := by
  intro l
  induction l with
  | nil => rfl
  | cons b t ih =>
    by_cases hb : b = 44
    · simp [takeNonComma, hb]
    · simp [takeNonComma, hb, ih]

theorem takeNonComma_app_mem : ∀ {l : Bytes} (r : Bytes), 44 ∈ l →
    takeNonComma (l ++ r) = takeNonComma l := by
  intro l
  induction l with
  | nil => intro r h; simp at h
  | cons b t ih =>
    intro r h
    by_cases hb : b = 44
    · simp [takeNonComma, hb]
    · have ht : 44 ∈ t := by
        rcases List.mem_cons.mp h with h1 | h1
        · exact absurd h1.symm hb
        · exact h1
      simp [takeNonComma, hb, ih r ht]

theorem splitOnComma_ne_nil : ∀ v : Bytes, splitOnComma v ≠ [] := by
  intro v
  induction v with
  | nil => simp [splitOnComma]
  | cons b t ih =>
    by_cases hb : b = 44
    · simp [splitOnComma, hb]
    · simp only [splitOnComma, if_neg hb]
      cases hs : splitOnComma t with
      | nil => exact absurd hs ih
      | cons s ss => simp

theorem splitOn_singleton : ∀ {t s : Bytes}, splitOnComma t = [s] → s = t ∧ 44 ∉ t := by
  intro t
  induction t with
  | nil =>
    intro s h
    simp [splitOnComma] at h
    subst h
    exact ⟨rfl, by simp⟩
  | cons c u ih =>
    intro s h
    by_cases hc : c = 44
    · rw [show splitOnComma (c :: u) = [] :: splitOnComma u by simp [splitOnComma, hc]] at h
      cases hs : splitOnComma u with
      | nil => exact absurd hs (splitOnComma_ne_nil u)
      | cons s' ss' => rw [hs] at h; simp at h
    · rw [show splitOnComma (c :: u) = (match splitOnComma u with
        | s' :: ss' => (c :: s') :: ss' | [] => [[c]]) by simp [splitOnComma, hc]] at h
      cases hs : splitOnComma u with
      | nil => exact absurd hs (splitOnComma_ne_nil u)
      | cons s' ss' =>
        rw [hs] at h
        simp at h
        obtain ⟨hcs, hss⟩ := h
        obtain ⟨hsu, hmem⟩ := ih (hss ▸ hs)
        subst hsu
        constructor
        · rw [← hcs]
        · intro hm
          rcases List.mem_cons.mp hm with h1 | h1
          · exact hc h1.symm
          · exact hmem h1

theorem splitOn_cons_mem : ∀ {t : Bytes} {s z : Bytes} {zs : List Bytes},
    splitOnComma t = s :: z :: zs → 44 ∈ t := by
  intro t
  induction t with
  | nil => intro s z zs h; simp [splitOnComma] at h
  | cons c u ih =>
    intro s z zs h
    by_cases hc : c = 44
    · simp [hc]
    · rw [show splitOnComma (c :: u) = (match splitOnComma u with
        | s' :: ss' => (c :: s') :: ss' | [] => [[c]]) by simp [splitOnComma, hc]] at h
      cases hs : splitOnComma u with
      | nil => rw [hs] at h; simp at h
      | cons s' ss' =>
        rw [hs] at h
        simp at h
        obtain ⟨_, hss⟩ := h
        rcases ss' with _ | ⟨z', zs'⟩
        · simp at hss
        · exact List.mem_cons_of_mem c (ih (hs.trans (by rw [hss])))

theorem lastSeg_getLast : ∀ v : Bytes,
    (splitOnComma v).getLast? = some (lastSegAfterComma v) := by
  intro v
  induction v with
  | nil => rfl
  | cons b t ih =>
    by_cases hb : b = 44
    · subst hb
      rw [show splitOnComma (44 :: t) = [] :: splitOnComma t by simp [splitOnComma]]
      have hseg : lastSegAfterComma (44 :: t) = lastSegAfterComma t := by
        unfold lastSegAfterComma
        rw [show (44 :: t).reverse = t.reverse ++ [44] by simp, takeNonComma_app44]
      rw [hseg]
      cases hs : splitOnComma t with
      | nil => exact absurd hs (splitOnComma_ne_nil t)
      | cons s ss =>
        rw [hs] at ih
        rw [List.getLast?_cons_cons]
        exact ih
    · rw [show splitOnComma (b :: t) = (match splitOnComma t with
        | s' :: ss' => (b :: s') :: ss' | [] => [[b]]) by simp [splitOnComma, hb]]
      cases hs : splitOnComma t with
      | nil => exact absurd hs (splitOnComma_ne_nil t)
      | cons s ss =>
        rw [hs] at ih
        cases ss with
        | nil =>
          obtain ⟨hst, hmem⟩ := splitOn_singleton hs
          have hseg : lastSegAfterComma (b :: t) = b :: t := by
            unfold lastSegAfterComma
            rw [takeNonComma_no44 (by
              intro hm
              rw [List.mem_reverse] at hm
              rcases List.mem_cons.mp hm with h1 | h1
              · exact hb h1.symm
              · exact hmem h1)]
            simp
          rw [hseg]
          simp [hst]
        | cons z zs =>
          have hmem : 44 ∈ t := splitOn_cons_mem hs
          have hseg : lastSegAfterComma (b :: t) = lastSegAfterComma t := by
            unfold lastSegAfterComma
            rw [show (b :: t).reverse = t.reverse ++ [b] by simp,
              takeNonComma_app_mem [b] (by rw [List.mem_reverse]; exact hmem)]
          rw [hseg, List.getLast?_cons_cons, ← List.getLast?_cons_cons (a := s), ih]

theorem is_chunked_eq_specU (headers : HeaderMap) :
    is_chunked headers = specIsChunkedU headers := by
  unfold is_chunked specIsChunkedU
  cases h : (getAll headers transferEncodingBytes).getLast? with
  | none => rfl
  | some v =>
    show (if utf8Valid v then eqIgnoreCase (uniTrim (lastSegAfterComma v)) chunkedBytes
          else false) =
      (utf8Valid v &&
        eqIgnoreCase (uniTrim ((splitOnComma v).getLast?.getD [])) chunkedBytes)
    rw [lastSeg_getLast v]
    cases hu : utf8Valid v <;> simp [hu]

/-! ## Lowercase-hex rendering facts -/

theorem hexCore_val : ∀ (fuel n : Nat), n < 16 ^ fuel → hexToNat (hexCore fuel n) = n := by
  intro fuel
  induction fuel with
  | zero =>
    intro n h
    simp at h
    subst h
    rfl
  | succ f ih =>
    intro n h
    cases n with
    | zero => rfl
    | succ m =>
      show hexToNat (hexCore f ((m + 1) / 16) ++ [hexDigitOut ((m + 1) % 16)]) = m + 1
      have hdiv : (m + 1) / 16 < 16 ^ f := by
        apply Nat.div_lt_of_lt_mul
        rw [pow_succ] at h
        omega
      have hfold : hexToNat (hexCore f ((m + 1) / 16) ++ [hexDigitOut ((m + 1) % 16)]) =
          hexToNat (hexCore f ((m + 1) / 16)) * 16 +
            (if digitB (hexDigitOut ((m + 1) % 16))
             then hexDigitOut ((m + 1) % 16) - 48 else hexDigitOut ((m + 1) % 16) - 87) := by
        unfold hexToNat
        rw [List.foldl_append]
        rfl
      rw [hfold, ih _ hdiv]
      have hm16 : (m + 1) % 16 < 16 := Nat.mod_lt _ (by norm_num)
      unfold hexDigitOut digitB
      by_cases hlt : (m + 1) % 16 < 10
      · rw [if_pos hlt, if_pos (by simp; omega)]
        omega
      · rw [if_neg hlt, if_neg (by simp; omega)]
        omega

theorem hexCore_digits : ∀ (fuel n : Nat), (hexCore fuel n).all hexDigB = true := by
  intro fuel
  induction fuel with
  | zero => intro n; cases n <;> rfl
  | succ f ih =>
    intro n
    cases n with
    | zero => rfl
    | succ m =>
      show ((hexCore f ((m + 1) / 16) ++ [hexDigitOut ((m + 1) % 16)]).all hexDigB) = true
      rw [List.all_append, ih]
      have hm16 : (m + 1) % 16 < 16 := Nat.mod_lt _ (by norm_num)
      simp only [Bool.true_and, List.all_cons, List.all_nil, Bool.and_true]
      unfold hexDigB hexDigitOut digitB
      by_cases hlt : (m + 1) % 16 < 10
      · rw [if_pos hlt]
        simp
        omega
      · rw [if_neg hlt]
        simp
        omega

theorem hexLower_spec (n : Nat) :
    hexToNat (hexLower n) = n ∧ (hexLower n).all hexDigB = true ∧ hexLower n ≠ [] := by
  by_cases h : n = 0
  · subst h
    refine ⟨by decide, by decide, by decide⟩
  · unfold hexLower
    rw [if_neg h]
    refine ⟨hexCore_val n n (Nat.lt_pow_self (by norm_num) n), hexCore_digits n n, ?_⟩
    cases n with
    | zero => exact absurd rfl h
    | succ m =>
      show hexCore m.succ (m + 1) ≠ []
      simp [hexCore]

/-! ## Claim theorems -/

/-- C1: the source of `writer::ContentLength::write_chunk` rejects a
chunk with `data.len() < self.0` as `TooMuchData` and accepts (and
wraps the counter for) any chunk at least as long as the remainder —
the opposite of the specified "accept iff length ≤ remaining".  A
3-byte chunk against remaining 5 errors, while a 3-byte chunk against
remaining 2 is accepted with the counter wrapped to `2^64 - 1`. -/
theorem c1_write_chunk_inverted :
    write_chunk 5 [1, 2, 3] = .error .TooMuchData ∧
    write_chunk 2 [1, 2, 3] = .ok (2 ^ 64 - 1, [1, 2, 3]) := by
  exact ⟨rfl, by decide⟩

/-- C4 counterexample: event serialization applies no chunked framing —
a `Data` payload is emitted unchanged, not as `hex(L) CRLF payload
CRLF`, and `EndOfMessage(None)` emits no bytes, not the five bytes
`0 CRLF CRLF`. -/
theorem c4_into_buf_not_chunked :
    Event.into_buf (.Data [65]) = some [65] ∧
    [65] ≠ write_chunked_chunk [65] ∧
    Event.into_buf (.EndOfMessage none) = some [] ∧
    ([] : Bytes) ≠ [48, 13, 10, 13, 10] := by
  refine ⟨rfl, by decide, rfl, by decide⟩

/-- C4 (amended): the helper `write_chunked_chunk` formats a payload of
length L as `hex(L) CRLF payload CRLF` with a correct nonempty
lowercase-hex length; but `Event::into_buf` — the only serializer the
driver uses — emits `Data` unchanged, `EndOfMessage(Some trailers)` as
the bare trailer header lines without a `0 CRLF` prefix or terminating
CRLF, and `EndOfMessage(None)` as no bytes at all. -/
theorem c4_chunk_formats :
    ∀ (data : Bytes) (hdrs : HeaderMap),
      write_chunked_chunk data = hexLower data.length ++ [13, 10] ++ data ++ [13, 10] ∧
      hexToNat (hexLower data.length) = data.length ∧
      (hexLower data.length).all hexDigB = true ∧
      hexLower data.length ≠ [] ∧
      Event.into_buf (.Data data) = some data ∧
      Event.into_buf (.EndOfMessage (some hdrs)) = some (headerLinesBytes hdrs) ∧
      Event.into_buf (.EndOfMessage none) = some [] := by
  intro data hdrs
  obtain ⟨h1, h2, h3⟩ := hexLower_spec data.length
  exact ⟨rfl, h1, h2, h3, rfl, rfl, rfl⟩

/-- C5 counterexample: the claim's plain-token reading of the chunked
test diverges from the program in both directions.  A `Transfer-
Encoding` value `0xFF,chunked` has rightmost comma token `chunked`, so
the claimed cascade says `Chunked`, but the source's `str::from_utf8`
guard rejects the non-UTF-8 value and the framing is `Http10`; a value
`chunked` followed by U+00A0 (NBSP) is `Chunked` in the source — the
Unicode `str::trim` strips the NBSP — while its rightmost token is not
the word `chunked`, so the claimed cascade says `Http10`. -/
theorem c5_counterexample :
    RespHead.framing_method
        ⟨200, .Http11, [(transferEncodingBytes, 255 :: 44 :: chunkedBytes)]⟩ getMethod =
      .Http10 ∧
    specRespFraming
        ⟨200, .Http11, [(transferEncodingBytes, 255 :: 44 :: chunkedBytes)]⟩ getMethod =
      .Chunked ∧
    RespHead.framing_method
        ⟨200, .Http11, [(transferEncodingBytes, chunkedBytes ++ [194, 160])]⟩ getMethod =
      .Chunked ∧
    specRespFraming
        ⟨200, .Http11, [(transferEncodingBytes, chunkedBytes ++ [194, 160])]⟩ getMethod =
      .Http10 := by
  refine ⟨by decide, by decide, by decide, by decide⟩

/-- C5 (amended): for every response head and paired request method,
the derived framing follows the cascade — `ContentLength 0` for
204/304, HEAD, or CONNECT with a 2xx status; else `Chunked` when the
last `Transfer-Encoding` value is valid UTF-8 and its rightmost
comma-separated token, trimmed of Unicode whitespace, is `chunked`
ASCII-case-insensitively; else `ContentLength n` from a parsed
`Content-Length`; else `Http10`. -/
theorem c5_framing_cascade :
    ∀ (r : RespHead) (method : Bytes),
      RespHead.framing_method r method = specRespFramingU r method := by
  intro r method
  have hsucc : (isSuccess r.status = true) ↔ (200 ≤ r.status ∧ r.status ≤ 299) := by
    simp [isSuccess]
    omega
  unfold RespHead.framing_method specRespFramingU
  rw [is_chunked_eq_specU]
  exact if_congr (by rw [hsucc]) rfl rfl

/-- C7 counterexample: an EOF on a Content-Length reader with remaining
0 is still reported as `ConnectionClosedPrematurely`, although the
claim says it is not an error. -/
theorem c7_eof_zero_remaining_errors :
    BodyReader.eof (.ContentLength 0) = .error .ConnectionClosedPrematurely := rfl

/-- C7 (amended): `BodyReader::eof` returns
`ConnectionClosedPrematurely` exactly when the reader is
`ContentLength` — with any remaining count, zero included — or
`Chunked` in any sub-state, and returns `EndOfMessage(None)` for the
`Http10` reader. -/
theorem c7_eof_characterization :
    ∀ r : BodyReader,
      (r.eof = .error .ConnectionClosedPrematurely ↔
        (∃ n, r = .ContentLength n) ∨ (∃ c, r = .Chunked c)) ∧
      (r = .Http10 → r.eof = .ok (.EndOfMessage none)) := by
  intro r
  cases r with
  | ContentLength n =>
    refine ⟨⟨fun _ => Or.inl ⟨n, rfl⟩, fun _ => rfl⟩, fun h => ?_⟩
    cases h
  | Chunked c =>
    refine ⟨⟨fun _ => Or.inr ⟨c, rfl⟩, fun _ => rfl⟩, fun h => ?_⟩
    cases h
  | Http10 =>
    refine ⟨⟨fun h => ?_, fun h => ?_⟩, fun _ => rfl⟩
    · cases h
    · rcases h with ⟨n, h⟩ | ⟨c, h⟩ <;> cases h

/-- C7 witness: concrete readers — EOF on `ContentLength 5` is the
premature-close error, and EOF on the `Http10` reader is the normal
end of message. -/
theorem c7_witness :
    (BodyReader.eof (.ContentLength 5) = .error .ConnectionClosedPrematurely ↔
      (∃ n, (BodyReader.ContentLength 5 : BodyReader) = .ContentLength n) ∨
      (∃ c, (BodyReader.ContentLength 5 : BodyReader) = .Chunked c)) ∧
    BodyReader.eof .Http10 = .ok (.EndOfMessage none) :=
  ⟨(c7_eof_characterization (.ContentLength 5)).1,
   (c7_eof_characterization .Http10).2 rfl⟩

/-- C8: over every connection state (so in particular every reachable
one), the `state_transitions` closure loop converges — four fuelled
iterations already agree with the full 512-fuel closure, and a further
`transStep` pass leaves the result fixed, so the source's unbounded
loop terminates within at most four iterations. -/
theorem c8_fixpoint_converges :
    ∀ (c : Client) (sv : Server) (ka pc pu : Bool),
      State.transFuel 4 ⟨c, sv, ka, pc, pu⟩ = State.state_transitions ⟨c, sv, ka, pc, pu⟩ ∧
      (State.state_transitions ⟨c, sv, ka, pc, pu⟩).transStep =
        State.state_transitions ⟨c, sv, ka, pc, pu⟩ := by
  decide

/-- C6 counterexample: from the driver whose two sides are both `Done`,
sending a CONNECT request is rejected as an invalid transition, yet the
failed call has already recorded the CONNECT proposal — the connection
state is mutated (the `pending_connect` flag flips to true and the
client side moves) by the rejected send. -/
theorem c6_counterexample :
    (doneInner.client_event (.Request connectReq)).1 = .error (.state .invalidTransition) ∧
    (doneInner.client_event (.Request connectReq)).2.state.pending_connect = true ∧
    (doneInner.client_event (.Request connectReq)).2.state ≠ doneInner.state := by
  refine ⟨by decide, by decide, by decide⟩

/-- C6 (amended): a send rejected with an invalid-transition (or any
other state) error leaves the connection untouched for every server
event and every non-`Request` client event; for a client `Request` the
CONNECT/Upgrade proposals are applied *before* the fallible transition,
so a rejected request send leaves every driver field unchanged except
the state, which keeps the proposal effects. -/
theorem c6_failed_send_state :
    ∀ (i : Inner) (e : Event),
      (∀ er, (i.server_event e).1 = .error er → (i.server_event e).2 = i) ∧
      ((∀ r, e ≠ .Request r) →
        ∀ er, (i.client_event e).1 = .error er → (i.client_event e).2 = i) ∧
      (∀ r, e = .Request r → ∀ er, (i.client_event e).1 = .error er →
        (i.client_event e).2 = { i with state :=
          (if containsKey r.headers upgradeBytes
           then (if r.method = connectMethod then i.state.connect_proposal
                 else i.state).upgrade_proposal
           else (if r.method = connectMethod then i.state.connect_proposal
                 else i.state)) }) := by
  intro i e
  refine ⟨?_, ?_, ?_⟩
  · intro er h
    unfold Inner.server_event at h ⊢
    cases hm : i.state.server_event e.to_state_event (switchFor i.state e) with
    | error e2 => rfl
    | ok s2 =>
      rw [hm] at h
      cases e <;> simp at h
  · intro hne er h
    cases e with
    | Request r => exact absurd rfl (hne r)
    | InfoResponse r =>
      simp only [Inner.client_event, Event.to_state_event] at h ⊢
      cases hm : i.state.client_event StateEvent.InfoResponse with
      | error e2 => rfl
      | ok s2 => rw [hm] at h; simp at h
    | Response r =>
      simp only [Inner.client_event, Event.to_state_event] at h ⊢
      cases hm : i.state.client_event StateEvent.Response with
      | error e2 => rfl
      | ok s2 => rw [hm] at h; simp at h
    | Data b =>
      simp only [Inner.client_event, Event.to_state_event] at h ⊢
      cases hm : i.state.client_event StateEvent.Data with
      | error e2 => rfl
      | ok s2 => rw [hm] at h; simp at h
    | EndOfMessage t =>
      simp only [Inner.client_event, Event.to_state_event] at h ⊢
      cases hm : i.state.client_event StateEvent.EndOfMessage with
      | error e2 => rfl
      | ok s2 => rw [hm] at h; simp at h
    | ConnectionClosed =>
      simp only [Inner.client_event, Event.to_state_event] at h ⊢
      cases hm : i.state.client_event StateEvent.ConnectionClosed with
      | error e2 => rfl
      | ok s2 => rw [hm] at h; simp at h
  · intro r hre er h
    subst hre
    cases hc : (if containsKey r.headers upgradeBytes
        then (if r.method = connectMethod then i.state.connect_proposal
              else i.state).upgrade_proposal
        else (if r.method = connectMethod then i.state.connect_proposal
              else i.state)).client_event .Request with
    | ok s2 =>
      rw [inner_client_event_request_ok_eq hc] at h
      simp at h
    | error e2 =>
      rw [inner_client_event_request_err_eq hc]

/-- C6 witness: concrete rejected sends — a server `Data` and a client
`EndOfMessage` from the both-`Done` driver leave it unchanged, while a
rejected CONNECT request keeps the proposal-updated state. -/
theorem c6_witness :
    (doneInner.server_event (.Data [])).2 = doneInner ∧
    (doneInner.client_event (.EndOfMessage none)).2 = doneInner ∧
    (doneInner.client_event (.Request connectReq)).2 = { doneInner with state :=
      (if containsKey connectReq.headers upgradeBytes
       then (if connectReq.method = connectMethod then doneInner.state.connect_proposal
             else doneInner.state).upgrade_proposal
       else (if connectReq.method = connectMethod then doneInner.state.connect_proposal
             else doneInner.state)) } :=
  ⟨(c6_failed_send_state doneInner (.Data [])).1 (.state .invalidTransition) (by decide),
   (c6_failed_send_state doneInner (.EndOfMessage none)).2.1
     (fun r hcontra => Event.noConfusion hcontra) (.state .invalidTransition) (by decide),
   (c6_failed_send_state doneInner (.Request connectReq)).2.2 connectReq rfl
     (.state .invalidTransition) (by decide)⟩

/-- C9 counterexample: a request with `Expect: x, 100-continue` is
accepted, but the driver leaves `client_wants_continue` false although
the last comma-separated token of the value is `100-continue` — the
source compares the whole trimmed value, not its last token. -/
theorem c9_counterexample :
    ((Inner.from_bufs []).client_event (.Request expectMixedReq)).1 = .ok () ∧
    ((Inner.from_bufs []).client_event (.Request expectMixedReq)).2.client_wants_continue
      = false ∧
    specWantsContinue expectMixedReq.headers = true := by
  refine ⟨by decide, by decide, by decide⟩

/-- C9 (amended): after an accepted client `Request`, the flag
`client_wants_continue` holds iff the request's last `Expect` header
value is valid UTF-8 and the *whole* value, trimmed of Unicode
whitespace (`str::trim`), equals `100-continue`
ASCII-case-insensitively; every accepted client `Data` or
`EndOfMessage` and every accepted server `InfoResponse` or final
`Response` resets it to false. -/
theorem c9_wants_continue :
    ∀ (i : Inner) (req : ReqHead) (b : Bytes) (t : Option HeaderMap) (resp : RespHead),
      ((i.client_event (.Request req)).1 = .ok () →
        (i.client_event (.Request req)).2.client_wants_continue = reqWantsContinue req) ∧
      ((i.client_event (.Data b)).1 = .ok () →
        (i.client_event (.Data b)).2.client_wants_continue = false) ∧
      ((i.client_event (.EndOfMessage t)).1 = .ok () →
        (i.client_event (.EndOfMessage t)).2.client_wants_continue = false) ∧
      ((i.server_event (.InfoResponse resp)).1 = .ok () →
        (i.server_event (.InfoResponse resp)).2.client_wants_continue = false) ∧
      ((i.server_event (.Response resp)).1 = .ok () →
        (i.server_event (.Response resp)).2.client_wants_continue = false) := by
  intro i req b t resp
  refine ⟨?_, ?_, ?_, ?_, ?_⟩
  · intro h
    cases hc : (if containsKey req.headers upgradeBytes
        then (if req.method = connectMethod then i.state.connect_proposal
              else i.state).upgrade_proposal
        else (if req.method = connectMethod then i.state.connect_proposal
              else i.state)).client_event .Request with
    | ok s2 => rw [inner_client_event_request_ok_eq hc]
    | error e2 =>
      rw [inner_client_event_request_err_eq hc] at h
      simp at h
  · intro h
    simp only [Inner.client_event, Event.to_state_event] at h ⊢
    cases hm : i.state.client_event StateEvent.Data with
    | ok s2 => rfl
    | error e2 => rw [hm] at h; simp at h
  · intro h
    simp only [Inner.client_event, Event.to_state_event] at h ⊢
    cases hm : i.state.client_event StateEvent.EndOfMessage with
    | ok s2 => rfl
    | error e2 => rw [hm] at h; simp at h
  · intro h
    simp only [Inner.server_event, Event.to_state_event] at h ⊢
    cases hm : i.state.server_event StateEvent.InfoResponse
        (switchFor i.state (.InfoResponse resp)) with
    | ok s2 => rfl
    | error e2 => rw [hm] at h; simp at h
  · intro h
    simp only [Inner.server_event, Event.to_state_event] at h ⊢
    cases hm : i.state.server_event StateEvent.Response
        (switchFor i.state (.Response resp)) with
    | ok s2 => rfl
    | error e2 => rw [hm] at h; simp at h

/-- C9 witness: concrete accepted events — the mixed `Expect` request
leaves the flag equal to the source's whole-value test (false here),
and an accepted client `EndOfMessage` resets it. -/
theorem c9_witness :
    ((Inner.from_bufs []).client_event (.Request expectMixedReq)).2.client_wants_continue
      = reqWantsContinue expectMixedReq ∧
    (connStreamingInner.client_event (.EndOfMessage none)).2.client_wants_continue = false :=
  ⟨((c9_wants_continue (Inner.from_bufs []) expectMixedReq [] none
      ⟨200, .Http11, []⟩).1) (by decide),
   ((c9_wants_continue connStreamingInner expectMixedReq [] none
      ⟨200, .Http11, []⟩).2.2.1) (by decide)⟩

/-- C10 counterexample: a CONNECT request is accepted (client begins
streaming its body, `SendBody`), and the server's 2xx final response is
then also accepted — the server side switches to `SwitchedProtocol`,
but the client side stays in `SendBody`, so the server has answered a
CONNECT's 2xx response without both sides entering `SwitchedProtocol`. -/
theorem c10_counterexample :
    ((((Inner.from_bufs []).client_event (.Request connectReq)).2.send_resp
        ⟨200, .Http11, []⟩).1.isOk = true) ∧
    ((((Inner.from_bufs []).client_event (.Request connectReq)).2.send_resp
        ⟨200, .Http11, []⟩).2.state.server = .SwitchedProtocol) ∧
    ((((Inner.from_bufs []).client_event (.Request connectReq)).2.send_resp
        ⟨200, .Http11, []⟩).2.state.client = .SendBody) := by
  refine ⟨by decide, by decide, by decide⟩

/-- C10 (amended): the switch is derived solely from the response being
sent — `send_info_resp` with status 101 always attempts an Upgrade, so
without a pending upgrade proposal it fails with `cannotUpgrade` and
leaves the driver unchanged; `send_resp` with a 2xx status while
`pending_connect` is set performs the Connect switch on the server
side, and the client side follows only if it had already finished its
message (paused in `MightSwitchProtocol`) — a client still in
`SendBody` stays there while the server switches. -/
theorem c10_switch_behaviour :
    ∀ (i : Inner) (resp : RespHead),
      (resp.status = 101 → i.state.pending_upgrade = false →
        (i.send_info_resp resp).1 = .error (.state .cannotUpgrade) ∧
        (i.send_info_resp resp).2 = i) ∧
      (i.state.pending_connect = true → isSuccess resp.status = true →
        i.state.server = .SendResponse →
        (i.state.client = .MightSwitchProtocol →
          ((i.send_resp resp).2.state.client = .SwitchedProtocol ∧
           (i.send_resp resp).2.state.server = .SwitchedProtocol)) ∧
        (i.state.client = .SendBody →
          ((i.send_resp resp).2.state.client = .SendBody ∧
           (i.send_resp resp).2.state.server = .SwitchedProtocol))) := by
  intro i resp
  constructor
  · intro h101 hpu
    have hse : i.state.server_event StateEvent.InfoResponse
        (switchFor i.state (.InfoResponse resp)) = .error .cannotUpgrade := by
      simp [switchFor, h101, State.server_event, hpu]
    have hmain : i.send_info_resp resp = (.error (.state .cannotUpgrade), i) := by
      simp only [Inner.send_info_resp, Inner.server_event, Event.to_state_event]
      rw [hse]
    rw [hmain]
    exact ⟨rfl, rfl⟩
  · intro hpc hsucc hsv
    have hsw : switchFor i.state (.Response resp) = some .Connect := by
      simp [switchFor, hpc, hsucc]
    have hcore : i.state.server_event StateEvent.Response (some .Connect) =
        .ok (State.state_transitions { i.state with server := .SwitchedProtocol }) := by
      unfold State.server_event
      rw [if_neg (by simp [hpc])]
      unfold State.server_event_core
      rw [hsv]
      simp [Server.send]
    have hresp : i.send_resp resp = (.ok ((Event.Response resp).into_buf),
        ⟨(if resp.can_keep_alive
          then State.state_transitions { i.state with server := .SwitchedProtocol }
          else (State.state_transitions
            { i.state with server := .SwitchedProtocol }).disable_keep_alive),
         i.in_buf, i.in_buf_closed, false, i.body_reader⟩) := by
      simp only [Inner.send_resp, Inner.server_event, Event.to_state_event]
      rw [hsw, hcore]
    constructor
    · intro hcl
      rw [hresp]
      have hx := st_msp_switched i.state.keep_alive i.state.pending_upgrade resp.can_keep_alive
      rw [show ({ i.state with server := .SwitchedProtocol } : State) =
          ⟨.MightSwitchProtocol, .SwitchedProtocol, i.state.keep_alive, true,
            i.state.pending_upgrade⟩ from by rw [← hcl, ← hpc]]
      exact hx
    · intro hcl
      rw [hresp]
      have hx := st_sendBody_switched i.state.keep_alive i.state.pending_upgrade
        resp.can_keep_alive
      rw [show ({ i.state with server := .SwitchedProtocol } : State) =
          ⟨.SendBody, .SwitchedProtocol, i.state.keep_alive, true,
            i.state.pending_upgrade⟩ from by rw [← hcl, ← hpc]]
      exact hx

/-- C10 witness: a 101 informational response from the fresh driver is
rejected with `cannotUpgrade` and changes nothing; a 200 final response
with a pending CONNECT switches the server while the client, still
streaming, stays in `SendBody` — or follows when it was paused. -/
theorem c10_witness :
    (((Inner.from_bufs []).send_info_resp ⟨101, .Http11, []⟩).1 =
        .error (.state .cannotUpgrade) ∧
      ((Inner.from_bufs []).send_info_resp ⟨101, .Http11, []⟩).2 = Inner.from_bufs []) ∧
    ((connStreamingInner.send_resp ⟨200, .Http11, []⟩).2.state.client = .SendBody ∧
      (connStreamingInner.send_resp ⟨200, .Http11, []⟩).2.state.server =
        .SwitchedProtocol) ∧
    ((connPausedInner.send_resp ⟨200, .Http11, []⟩).2.state.client = .SwitchedProtocol ∧
      (connPausedInner.send_resp ⟨200, .Http11, []⟩).2.state.server = .SwitchedProtocol) :=
  ⟨(c10_switch_behaviour (Inner.from_bufs []) ⟨101, .Http11, []⟩).1 rfl rfl,
   ((c10_switch_behaviour connStreamingInner ⟨200, .Http11, []⟩).2 rfl (by decide)
     rfl).2 rfl,
   ((c10_switch_behaviour connPausedInner ⟨200, .Http11, []⟩).2 rfl (by decide)
     rfl).1 rfl⟩

/-- C2 counterexample: after parsing `GET / HTTP/1.1` (zero-length
body) with one extra byte buffered, the next driver call produces the
body's `EndOfMessage` event, yet the `BodyReader` is *not* destroyed
and the client side stays in `SendBody`. -/
theorem c2_counterexample :
    (Inner.from_bufs
        (getReqBytes ++ [88])).next_client_event.2.next_client_event.1 =
      .ok (some (.EndOfMessage none)) ∧
    (Inner.from_bufs
        (getReqBytes ++ [88])).next_client_event.2.next_client_event.2.body_reader.isSome =
      true ∧
    (Inner.from_bufs
        (getReqBytes ++ [88])).next_client_event.2.next_client_event.2.state.client =
      .SendBody := by
  refine ⟨by decide, by decide, by decide⟩

/-- C2 (amended): on every reachable driver state a `BodyReader` is
present iff the client side of the state machine is in `SendBody` — it
is installed exactly when a parsed request head moves the client into
`SendBody`, but it is never destroyed: body events (the produced
`EndOfMessage` included) bypass the state machine, so a pump call from
`SendBody` preserves both the reader's presence and the whole
connection state. -/
theorem c2_reader_iff_sendbody :
    ∀ i : Inner, Reachable i →
      (i.body_reader.isSome = true ↔ i.state.client = .SendBody) ∧
      (i.state.client = .SendBody →
        i.next_client_event.2.body_reader.isSome = i.body_reader.isSome ∧
        i.next_client_event.2.state = i.state) := by
  intro i hr
  refine ⟨reachable_inv i hr, fun hcl => ?_⟩
  unfold Inner.next_client_event
  simp only [hcl]
  cases hb : i.body_reader with
  | none => simp [hb]
  | some br =>
    by_cases hbuf : i.in_buf = []
    · by_cases hcls : i.in_buf_closed = true
      · cases he : br.eof with
        | ok ev => simp [hbuf, hcls, he, hb]
        | error er => simp [hbuf, hcls, he, hb]
      · simp [hbuf, hcls, hb]
    · cases hx : (br.next_event i.in_buf).1 with
      | ok ev => simp [hbuf, hx, hb]
      | error er => simp [hbuf, hx, hb]

/-- C2 witness: the driver state reached by parsing `GET / HTTP/1.1`
satisfies the invariant — reader present, client in `SendBody` — and
the following pump call preserves both. -/
theorem c2_witness :
    ((Inner.from_bufs getReqBytes).next_client_event.2.body_reader.isSome = true ↔
      (Inner.from_bufs getReqBytes).next_client_event.2.state.client = .SendBody) ∧
    ((Inner.from_bufs
        getReqBytes).next_client_event.2.next_client_event.2.body_reader.isSome =
      (Inner.from_bufs getReqBytes).next_client_event.2.body_reader.isSome ∧
     (Inner.from_bufs getReqBytes).next_client_event.2.next_client_event.2.state =
      (Inner.from_bufs getReqBytes).next_client_event.2.state) :=
  ⟨(c2_reader_iff_sendbody ((Inner.from_bufs getReqBytes).next_client_event.2)
      (Reachable.next_event (Inner.from_bufs getReqBytes)
        (Reachable.init getReqBytes))).1,
   (c2_reader_iff_sendbody ((Inner.from_bufs getReqBytes).next_client_event.2)
      (Reachable.next_event (Inner.from_bufs getReqBytes)
        (Reachable.init getReqBytes))).2 (by decide)⟩

/-- C3 counterexample: a request head whose only header value carries a
leading blank (`h:  x` stored as ` x`) serializes and parses back with
the value trimmed to `x` — the round trip is not the identity on such
heads. -/
theorem c3_counterexample :
    ReqHead.from_buf ((ReqHead.write_to_buf
        ⟨getMethod, ⟨[47], none⟩, .Http11, [([104], [32, 120])]⟩).getD []) =
      (.ok (some ⟨getMethod, ⟨[47], none⟩, .Http11, [([104], [120])]⟩), []) ∧
    (⟨getMethod, ⟨[47], none⟩, .Http11, [([104], [120])]⟩ : ReqHead) ≠
      ⟨getMethod, ⟨[47], none⟩, .Http11, [([104], [32, 120])]⟩ := by
  refine ⟨by decide, by decide⟩

/-- C3 (amended): the serialize-parse round trip is the identity on
HTTP/1.1 heads that are well formed for the 50-slot parser: token
method (resp. 100..999 status), origin-form target, at most 50 headers
whose names are lowercase tokens and whose values are value bytes with
no leading or trailing blank — for such request and response heads,
parsing the serialized bytes returns exactly the original head with
the buffer fully consumed. -/
theorem c3_round_trip :
    ∀ (r : ReqHead) (p : RespHead),
      (r.wf → r.version = .Http11 → ∀ out, r.write_to_buf = some out →
        ReqHead.from_buf out = (.ok (some r), [])) ∧
      (p.wf → p.version = .Http11 → ∀ out, p.write_to_buf = some out →
        RespHead.from_buf out = (.ok (some p), [])) :=
  fun r p => ⟨ReqHead_from_buf_round r, RespHead_from_buf_round p⟩

/-- C3 witness: concrete round trips — `GET /a HTTP/1.1` with header
`h: x`, and `HTTP/1.1 200 OK` with the same header. -/
theorem c3_witness :
    ReqHead.from_buf ((ReqHead.write_to_buf
        ⟨getMethod, ⟨[47, 97], none⟩, .Http11, [([104], [120])]⟩).getD []) =
      (.ok (some ⟨getMethod, ⟨[47, 97], none⟩, .Http11, [([104], [120])]⟩), []) ∧
    RespHead.from_buf ((RespHead.write_to_buf ⟨200, .Http11, [([104], [120])]⟩).getD []) =
      (.ok (some ⟨200, .Http11, [([104], [120])]⟩), []) :=
  ⟨(c3_round_trip ⟨getMethod, ⟨[47, 97], none⟩, .Http11, [([104], [120])]⟩
      ⟨200, .Http11, [([104], [120])]⟩).1
    (by
      unfold ReqHead.wf goodHeaders goodName goodValue
      refine ⟨?_, ?_, ?_, ?_, ?_, ?_, ?_⟩
      · decide
      · decide
      · decide
      · decide
      · intro q h
        exact nomatch h
      · decide
      · intro pr hp
        rw [List.mem_singleton] at hp
        subst hp
        refine ⟨⟨?_, ?_, ?_⟩, ?_, ?_, ?_⟩ <;> decide)
    rfl _ rfl,
   (c3_round_trip ⟨getMethod, ⟨[47, 97], none⟩, .Http11, [([104], [120])]⟩
      ⟨200, .Http11, [([104], [120])]⟩).2
    (by
      unfold RespHead.wf goodHeaders goodName goodValue
      refine ⟨?_, ?_, ?_, ?_⟩
      · decide
      · decide
      · decide
      · intro pr hp
        rw [List.mem_singleton] at hp
        subst hp
        refine ⟨⟨?_, ?_, ?_⟩, ?_, ?_, ?_⟩ <;> decide)
    rfl _ rfl⟩

end H11
